import Mathlib

/-!
# Frontend OpenAPI client generator

A shallow embedding of `packages/client-cli/lib/frontend-openapi-generator.mjs`.

The generator drives a `CodeBlockWriter`.  The embedding records the sequence of
calls made on the writer (`Cmd`), so that a writer is the list of calls it has
received so far; `block(cb)` and `inlineBlock(cb)` bracket the calls made by their
callback between an opening and a closing mark.  The helper functions imported from
other modules (`utils.mjs`, `camelcase`, `@platformatic/client`,
`openapi-common.mjs`) are taken as parameters, bundled in `Helpers`.
-/

set_option autoImplicit false

namespace FrontendOpenAPI

/-! ## Data model -/

/-- One entry of an operation's `parameters` array: `{ name, in }`. -/
structure Parameter where
  name : String
  in_ : String
  deriving DecidableEq, Repr

/-- A response object of the document; only its `content` keys (media types) are kept. -/
structure ResponseObject where
  content : Option (List String)
  deriving DecidableEq, Repr

/-- The `responses` object of an operation, as `Object.entries` enumerates it. -/
abbrev Responses := List (String × ResponseObject)

/-- An operation object as found under `paths[path][method]`. -/
structure OperationObject where
  operationId : Option String
  parameters : Option (List Parameter)
  responses : Responses
  deriving DecidableEq, Repr

/-- The `operation` field of an extracted record: `{ ...operation, operationId: opId }`. -/
structure Operation where
  operationId : String
  parameters : Option (List Parameter)
  responses : Responses
  deriving DecidableEq, Repr

/-- An extracted record `{ path, method, operation }`. -/
structure OperationRecord where
  path : String
  method : String
  operation : Operation
  deriving DecidableEq, Repr

/-- The `paths` object, as nested `Object.entries` enumerate it. -/
abbrev Paths := List (String × List (String × OperationObject))

/-- The document; only `paths` is read. -/
structure Schema where
  paths : Paths
  deriving Repr

/-! ## The writer -/

/-- A call received by a `CodeBlockWriter`. -/
inductive Cmd where
  | write (text : String)
  | writeLine (text : String)
  | conditionalWriteLine (condition : Bool) (text : String)
  | blankLine
  | blankLineIfLastNot
  | quote
  | blockOpen
  | blockClose
  | inlineBlockOpen
  | inlineBlockClose
  deriving DecidableEq, Repr

/-- A writer is the sequence of calls it has received. -/
abbrev Writer := List Cmd

namespace Writer

def write (w : Writer) (text : String) : Writer := w ++ [Cmd.write text]

def writeLine (w : Writer) (text : String) : Writer := w ++ [Cmd.writeLine text]

def conditionalWriteLine (w : Writer) (condition : Bool) (text : String) : Writer :=
  w ++ [Cmd.conditionalWriteLine condition text]

def blankLine (w : Writer) : Writer := w ++ [Cmd.blankLine]

def blankLineIfLastNot (w : Writer) : Writer := w ++ [Cmd.blankLineIfLastNot]

def quote (w : Writer) : Writer := w ++ [Cmd.quote]

def block (w : Writer) (cb : Writer → Writer) : Writer :=
  cb (w ++ [Cmd.blockOpen]) ++ [Cmd.blockClose]

def inlineBlock (w : Writer) (cb : Writer → Writer) : Writer :=
  cb (w ++ [Cmd.inlineBlockOpen]) ++ [Cmd.inlineBlockClose]

end Writer

/-! ## Imported helpers -/

/-- The functions the generator imports from modules that are not part of this file. -/
structure Helpers where
  /-- The function `capitalize` of `utils.mjs`. -/
  capitalize : String → String
  /-- The function `camelcase` of the `camelcase` package. -/
  camelcase : String → String
  /-- The call `generateOperationId(path, method, operation, generatedOperationIds)`; the array
  it pushes to is threaded explicitly. -/
  generateOperationId :
    String → String → OperationObject → List String → String × List String
  /-- The function `getResponseContentType` of `utils.mjs`; `none` stands for `null`. -/
  getResponseContentType : ResponseObject → Option String
  /-- The function `getResponseTypes` of `utils.mjs`: each decode method with its status
  literals, in key order. -/
  getResponseTypes : Responses → List (String × List String)
  /-- The function `getAllResponseCodes` of `utils.mjs`. -/
  getAllResponseCodes : Responses → List String
  /-- The function `is200JsonResponse` of `utils.mjs`. -/
  is200JsonResponse : Responses → Bool
  /-- The call `writeOperations(interfaces, writer, operations, options)` of
  `openapi-common.mjs`:
  the two writers after the call. -/
  writeOperations :
    Writer → Writer → List OperationRecord → Bool → Schema → Writer × Writer

/-! ## String primitives -/

/-- The test `s.startsWith(pre)`. -/
def startsWith (s pre : String) : Bool := pre.data.isPrefixOf s.data

/-- The call `s.replace(/c/gm, r)` for a pattern matching the single character `c` and a
replacement `r` without substitution patterns. -/
def replaceAll (s : String) (c : Char) (r : String) : String :=
  ⟨s.data.flatMap (fun ch => if ch = c then r.data else [ch])⟩

/-- The call `s.toUpperCase()`, on the characters Lean upper-cases (the ASCII letters). -/
def toUpperCase (s : String) : String := ⟨s.data.map Char.toUpper⟩

/-- The call `xs.join(sep)`. -/
def join (xs : List String) (sep : String) : String := sep.intercalate xs

/-! ## `generateFrontendImplementationFromOpenAPI` -/

/-- Lines 18-30 (and 298-310): the inner `Object.entries(methods).map`, threading
`generatedOperationIds`. -/
def extractMethods (H : Helpers) (path : String) :
    List (String × OperationObject) → List String → List OperationRecord × List String
  | [], generatedOperationIds => ([], generatedOperationIds)
  | (method, operation) :: rest, generatedOperationIds =>
    let (opId, generatedOperationIds) :=
      H.generateOperationId path method operation generatedOperationIds
    let record : OperationRecord :=
      { path := path, method := method,
        operation := { operationId := opId, parameters := operation.parameters,
                       responses := operation.responses } }
    let (records, generatedOperationIds) := extractMethods H path rest generatedOperationIds
    (record :: records, generatedOperationIds)

/-- Lines 18-30 (and 298-310): the outer `Object.entries(paths).flatMap`. -/
def extractPaths (H : Helpers) : Paths → List String → List OperationRecord × List String
  | [], generatedOperationIds => ([], generatedOperationIds)
  | (path, methods) :: rest, generatedOperationIds =>
    let (records, generatedOperationIds) := extractMethods H path methods generatedOperationIds
    let (others, generatedOperationIds) := extractPaths H rest generatedOperationIds
    (records ++ others, generatedOperationIds)

/-- Lines 17-30: `operations`. -/
def extractOperations (H : Helpers) (paths : Paths) : List OperationRecord :=
  (extractPaths H paths []).1

/-- Lines 83-87. -/
def getQueryParamsString (operationParams : List Parameter) : List String :=
  (operationParams.filter (fun p => p.in_ = "query")).map (fun p => p.name)

/-- Lines 89-93. -/
def getHeaderParams (operationParams : List Parameter) : List String :=
  (operationParams.filter (fun p => p.in_ = "header")).map (fun p => p.name)

/-- Lines 100-105: `queryParams`. -/
def queryParamsOf (operation : OperationRecord) : List String :=
  match operation.operation.parameters with
  | some parameters => getQueryParamsString parameters
  | none => []

/-- Lines 100-105: `headerParams`. -/
def headerParamsOf (operation : OperationRecord) : List String :=
  match operation.operation.parameters with
  | some parameters => getHeaderParams parameters
  | none => []

/-- Lines 39-79: everything written before the loop over the operations. -/
def writePreamble (name language camelCaseName : String) (writer : Writer) : Writer :=
  let writer := writer.write
    "// This client was generated by Platformatic from an OpenAPI specification."
  let writer := writer.blankLine
  let writer := writer.conditionalWriteLine (language = "ts")
    ("import type \x7b " ++ camelCaseName ++ " \x7d from './" ++ name ++ "-types'")
  let writer := writer.conditionalWriteLine (language = "ts")
    ("import type * as Types from './" ++ name ++ "-types'")
  let writer := writer.blankLineIfLastNot
  let writer := writer.writeLine
    "// The base URL for the API. This can be overridden by calling `setBaseUrl`."
  let writer := writer.writeLine "let baseUrl = ''"
  let writer :=
    if language = "ts" then
      let writer := writer.writeLine
        "export const setBaseUrl = (newUrl: string) : void => \x7b baseUrl = newUrl \x7d"
      let writer := writer.writeLine "/* @ts-ignore */"
      (writer.write "function headersToJSON(headers: Headers): Object ").block (fun writer =>
        let writer := writer.writeLine "const output = \x7b\x7d as any"
        let writer := (writer.write "headers.forEach((value, key) => ").inlineBlock
          (fun writer => writer.write "output[key] = value")
        let writer := writer.write ")"
        writer.writeLine "return output")
    else
      let writer := writer.writeLine
        ("/**  @type \x7bimport('./" ++ name ++ "-types.d.ts')." ++ camelCaseName
          ++ "['setBaseUrl']\x7d */")
      let writer := writer.writeLine
        "export const setBaseUrl = (newUrl) => \x7b baseUrl = newUrl \x7d"
      (writer.write "function headersToJSON(headers) ").block (fun writer =>
        let writer := writer.writeLine "const output = \x7b\x7d"
        let writer := (writer.write "headers.forEach((value, key) => ").inlineBlock
          (fun writer => writer.write "output[key] = value")
        let writer := writer.write ")"
        writer.writeLine "return output")
  writer.blankLine

/-- Line 138: `stringLiteralPath`. -/
def stringLiteralPath (path : String) : String :=
  replaceAll (replaceAll path '\x7b' "$\x7brequest['") '\x7d' "']\x7d"

/-- Lines 140-157: the query-parameter extraction code. -/
def writeQueryParameters (language operationRequestName : String) (queryParams : List String)
    (writer : Writer) : Writer :=
  if queryParams.length ≠ 0 then
    let quotedParams := queryParams.map (fun qp => "'" ++ qp ++ "'")
    let queryParametersType :=
      if language = "ts" then ": (keyof Types." ++ operationRequestName ++ ")[] " else ""
    let writer := writer.writeLine
      ("const queryParameters" ++ queryParametersType ++ " = [" ++ join quotedParams ", " ++ "]")
    let writer := writer.writeLine "const searchParams = new URLSearchParams()"
    let writer := (writer.write "queryParameters.forEach((qp) => ").inlineBlock (fun writer =>
      (writer.write "if (request[qp]) ").block (fun writer =>
        let writer := writer.writeLine "searchParams.append(qp, request[qp]?.toString() || '')"
        writer.writeLine "delete request[qp]"))
    let writer := writer.write ")"
    writer.blankLine
  else writer

/-- Lines 158-162: the declaration of the `headers` map. -/
def writeHeadersDeclaration (method : String) (writer : Writer) : Writer :=
  if method ≠ "get" then
    (writer.write "const headers =").block (fun writer =>
      writer.writeLine "'Content-type': 'application/json; charset=utf-8'")
  else writer

/-- Lines 165-168: the body of `headerParams.forEach`. -/
def writeHeaderParam (writer : Writer) (param : String) : Writer :=
  (writer.write ("if (request['" ++ param ++ "'] !== undefined)")).block (fun writer =>
    let writer := writer.writeLine ("headers['" ++ param ++ "'] = request['" ++ param ++ "']")
    writer.writeLine ("delete request['" ++ param ++ "']"))

/-- Lines 164-169: `headerParams.forEach`. -/
def writeHeaderParams (headerParams : List String) (writer : Writer) : Writer :=
  headerParams.foldl writeHeaderParam writer

/-- Line 173: `searchString`. -/
def searchString (queryParams : List String) : String :=
  if queryParams.length > 0 then "?$\x7bsearchParams.toString()\x7d" else ""

/-- Lines 174-185: the `fetch` call. -/
def writeFetch (method path : String) (queryParams : List String) (writer : Writer) : Writer :=
  if method ≠ "get" then
    ((writer.write ("const response = await fetch(`$\x7burl\x7d" ++ stringLiteralPath path
        ++ searchString queryParams ++ "`, ")).inlineBlock (fun writer =>
      let writer := ((((writer.write "method: ").quote).write (toUpperCase method)).quote).write ","
      let writer := writer.writeLine "body: JSON.stringify(request),"
      writer.write "headers")).write ")"
  else
    writer.write ("const response = await fetch(`$\x7burl\x7d" ++ stringLiteralPath path
      ++ searchString queryParams ++ "`)")

/-- Lines 192-206: the body of `Object.keys(mappedResponses).forEach`. -/
def writeResponseGroup (language : String) (writer : Writer)
    (group : String × List String) : Writer :=
  let responseType := group.1
  let statuses := group.2
  if statuses.length > 0 then
    let writer := writer.writeLine
      ("const " ++ responseType ++ "Responses = [" ++ join statuses ", " ++ "]")
    (writer.write ("if (" ++ responseType ++ "Responses.includes(response.status)) ")).block
      (fun writer =>
        (writer.write "return ").block (fun writer =>
          let writer := writer.write "statusCode: response.status"
          let writer :=
            if language = "ts" then writer.write (" as " ++ join statuses " | " ++ ",")
            else writer.write ","
          let writer := writer.writeLine "headers: headersToJSON(response.headers),"
          writer.writeLine ("body: await response." ++ responseType ++ "()")))
  else writer

/-- Lines 190-237: the full-response branch. -/
def writeFullResponse (H : Helpers) (language : String) (responses : Responses)
    (mappedResponses : List (String × List String)) (writer : Writer) : Writer :=
  let allResponseCodes := H.getAllResponseCodes responses
  let writer := mappedResponses.foldl (writeResponseGroup language) writer
  let writer :=
    (writer.write "if (response.headers.get('content-type') === 'application/json') ").block
      (fun writer =>
        (writer.write "return ").block (fun writer =>
          let writer := writer.write "statusCode: response.status"
          let writer :=
            if language = "ts" then writer.write (" as " ++ join allResponseCodes " | " ++ ",")
            else writer.write ","
          let writer := writer.writeLine "headers: headersToJSON(response.headers),"
          let writer := writer.write "body: await response.json()"
          if language = "ts" then writer.write " as any" else writer))
  (writer.write "return ").block (fun writer =>
    let writer := writer.write "statusCode: response.status"
    let writer :=
      if language = "ts" then writer.write (" as " ++ join allResponseCodes " | " ++ ",")
      else writer.write ","
    let writer := writer.writeLine "headers: headersToJSON(response.headers),"
    let writer := writer.write "body: await response.text()"
    if language = "ts" then writer.write " as any" else writer)

/-- Lines 239-248: the branch taken when `currentFullResponse` is falsy. -/
def writePlainResponse (H : Helpers) (responses : Responses) (writer : Writer) : Writer :=
  let writer := (writer.write "if (!response.ok)").block (fun writer =>
    writer.writeLine "throw new Error(await response.text())")
  let writer := writer.blankLine
  if H.is200JsonResponse responses then writer.writeLine "return await response.json()"
  else writer.writeLine "return await response.text()"

/-- Lines 188-249: the response dispatch. -/
def writeResponseDispatch (H : Helpers) (language : String) (responses : Responses)
    (currentFullResponse : Bool) (writer : Writer) : Writer :=
  let mappedResponses := H.getResponseTypes responses
  if currentFullResponse then writeFullResponse H language responses mappedResponses writer
  else writePlainResponse H responses writer

/-- Lines 138-187: the code up to the `fetch` call and the blank line after it. -/
def writeRequest (language operationRequestName : String) (operation : OperationRecord)
    (queryParams headerParams : List String) (writer : Writer) : Writer :=
  let writer := writeQueryParameters language operationRequestName queryParams writer
  let writer := writeHeadersDeclaration operation.method writer
  let writer := writeHeaderParams headerParams writer
  let writer := writer.blankLine
  let writer := writeFetch operation.method operation.path queryParams writer
  writer.blankLine

/-- Lines 133-250: the callback of the function body block. -/
def writeFunctionBody (H : Helpers) (language operationRequestName : String)
    (operation : OperationRecord) (queryParams headerParams : List String)
    (currentFullResponse : Bool) (writer : Writer) : Writer :=
  let writer := writeRequest language operationRequestName operation queryParams headerParams
    writer
  writeResponseDispatch H language operation.operation.responses currentFullResponse writer

/-- Lines 120-131: the head of the private function. -/
def writeFunctionHead (language underscoredOperationId operationRequestName
    operationResponseName : String) (writer : Writer) : Writer :=
  if language = "ts" then
    writer.write ("const " ++ underscoredOperationId ++ " = async (url: string, request: Types."
      ++ operationRequestName ++ "): Promise<Types." ++ operationResponseName ++ "> =>")
  else
    writer.write ("async function " ++ underscoredOperationId ++ " (url, request)")

/-- Lines 252-271: the exported wrapper bound to `baseUrl`. -/
def writeExport (name language camelCaseName operationId underscoredOperationId
    operationRequestName operationResponseName : String) (writer : Writer) : Writer :=
  if language = "ts" then
    (writer.write ("export const " ++ operationId ++ ": " ++ camelCaseName ++ "['" ++ operationId
      ++ "'] = async (request: Types." ++ operationRequestName ++ "): Promise<Types."
      ++ operationResponseName ++ "> =>")).block (fun writer =>
        writer.write ("return await " ++ underscoredOperationId ++ "(baseUrl, request)"))
  else
    ((writer.writeLine ("/**  @type \x7bimport('./" ++ name ++ "-types.d.ts')." ++ camelCaseName
      ++ "['" ++ operationId ++ "']\x7d */")).write
      ("export const " ++ operationId ++ " = async (request) =>")).block (fun writer =>
        writer.write ("return await " ++ underscoredOperationId ++ "(baseUrl, request)"))

/-- The variables the loop of lines 94-273 updates. -/
structure LoopState where
  writer : Writer
  allOperations : List String
  currentFullResponse : Bool
  deriving DecidableEq, Repr

/-- Lines 110-119: the update of `currentFullResponse`. -/
def updateFullResponse (H : Helpers) (responses : Responses) (currentFullResponse : Bool) :
    Bool :=
  let successResponses := responses.filter (fun e => startsWith e.1 "2")
  if successResponses.length ≠ 1 then true
  else
    match successResponses.head? with
    | some first => if H.getResponseContentType first.2 = none then true else currentFullResponse
    | none => currentFullResponse

/-- Lines 95-272: one iteration of the loop over `operations`. -/
def operationStep (H : Helpers) (name language camelCaseName : String)
    (originalFullResponse : Bool) (st : LoopState) (operation : OperationRecord) : LoopState :=
  let operationId := operation.operation.operationId
  let responses := operation.operation.responses
  let camelCaseOperationId := H.camelcase operationId
  let operationRequestName := H.capitalize camelCaseOperationId ++ "Request"
  let operationResponseName := H.capitalize camelCaseOperationId ++ "Responses"
  let underscoredOperationId := "_" ++ operationId
  let queryParams := queryParamsOf operation
  let headerParams := headerParamsOf operation
  let allOperations := st.allOperations ++ [operationId]
  let currentFullResponse := updateFullResponse H responses st.currentFullResponse
  let writer := writeFunctionHead language underscoredOperationId operationRequestName
    operationResponseName st.writer
  let writer := writer.block (fun writer =>
    writeFunctionBody H language operationRequestName operation queryParams headerParams
      currentFullResponse writer)
  let writer := writer.blankLine
  let writer := writeExport name language camelCaseName operationId underscoredOperationId
    operationRequestName operationResponseName writer
  { writer := writer, allOperations := allOperations,
    currentFullResponse := originalFullResponse }

/-- Lines 280-288: the entries of the object returned by `build`. -/
def writeFactoryEntries (allOperations : List String) (writer : Writer) : Writer :=
  (allOperations.enum).foldl (fun writer entry =>
    let idx := entry.1
    let op := entry.2
    let underscoredOperation := "_" ++ op
    let methodString := op ++ ": " ++ underscoredOperation ++ ".bind(url, ...arguments)"
    if idx = allOperations.length - 1 then writer.writeLine methodString
    else writer.writeLine (methodString ++ ",")) writer

/-- Lines 274-290: the `build` factory. -/
def writeFactory (language : String) (allOperations : List String) (writer : Writer) : Writer :=
  let factoryBuildFunction :=
    if language = "ts" then "export default function build (url: string)"
    else "export default function build (url)"
  (writer.write factoryBuildFunction).block (fun writer =>
    (writer.write "return").block (fun writer => writeFactoryEntries allOperations writer))

/-- Lines 14-292; the result is the writer whose `toString()` is returned. -/
def generateFrontendImplementationFromOpenAPI (H : Helpers) (schema : Schema)
    (name language : String) (fullResponse : Bool) : Writer :=
  let camelCaseName := H.capitalize (H.camelcase name)
  let operations := extractOperations H schema.paths
  let writer := writePreamble name language camelCaseName []
  let originalFullResponse := fullResponse
  let st := operations.foldl (operationStep H name language camelCaseName originalFullResponse)
    { writer := writer, allOperations := [], currentFullResponse := originalFullResponse }
  writeFactory language st.allOperations st.writer

/-- Lines 294-342; the result is the pair of writers `(interfaces, writer)` whose
`toString()`s are concatenated. -/
def generateTypesFromOpenAPI (H : Helpers) (schema : Schema) (name : String)
    (fullResponse : Bool) : Writer × Writer :=
  let camelCaseName := H.capitalize (H.camelcase name)
  let operations := extractOperations H schema.paths
  let writer : Writer := []
  let interfaces : Writer := []
  let interfaces := (interfaces.write "export interface FullResponse<T, U extends number>").block
    (fun interfaces =>
      let interfaces := interfaces.writeLine "'statusCode': U;"
      let interfaces := interfaces.writeLine "'headers': object;"
      interfaces.writeLine "'body': T;")
  let interfaces := interfaces.blankLine
  let writer := writer.blankLine
  let writer := writer.write ("export interface " ++ camelCaseName)
  let writer := writer ++ [Cmd.blockOpen]
  let writer := writer.writeLine "setBaseUrl(newUrl: string) : void;"
  let (interfaces, writer) := H.writeOperations interfaces writer operations fullResponse schema
  let writer := writer ++ [Cmd.blockClose]
  let writer := writer.writeLine
    ("type PlatformaticFrontendClient = Omit<" ++ H.capitalize name ++ ", 'setBaseUrl'>")
  let writer := writer.writeLine
    "export default function build(url: string): PlatformaticFrontendClient"
  (interfaces, writer)

/-- The state in which the loop of lines 94-273 is entered. -/
def initialState (name language camelCaseName : String) (fullResponse : Bool) : LoopState :=
  { writer := writePreamble name language camelCaseName [], allOperations := [],
    currentFullResponse := fullResponse }

/-- The calls one iteration of the loop makes on the writer, as a function of the value
`currentFullResponse` has at line 189: the function head, the body block holding the
request code followed by one of the two dispatch branches, and the exported wrapper. -/
def operationCode (H : Helpers) (name language camelCaseName : String)
    (operation : OperationRecord) (currentFullResponse : Bool) : List Cmd :=
  let operationId := operation.operation.operationId
  let operationRequestName := H.capitalize (H.camelcase operationId) ++ "Request"
  let operationResponseName := H.capitalize (H.camelcase operationId) ++ "Responses"
  writeFunctionHead language ("_" ++ operationId) operationRequestName operationResponseName []
    ++ [Cmd.blockOpen]
    ++ writeRequest language operationRequestName operation (queryParamsOf operation)
        (headerParamsOf operation) []
    ++ (if currentFullResponse then
          writeFullResponse H language operation.operation.responses
            (H.getResponseTypes operation.operation.responses) []
        else writePlainResponse H operation.operation.responses [])
    ++ [Cmd.blockClose, Cmd.blankLine]
    ++ writeExport name language camelCaseName operationId ("_" ++ operationId)
        operationRequestName operationResponseName []

/-- The classification of an operation in the words of the specification: the envelope is
used when the success responses are not exactly one, or the sole success response has
no content type, or the caller asked for it globally. -/
def classify (H : Helpers) (responses : Responses) (globalFullResponseFlag : Bool) : Bool :=
  let success := responses.filter (fun e => startsWith e.1 "2")
  decide (success.length ≠ 1)
    || (match success with
        | [sole] => decide (H.getResponseContentType sole.2 = none)
        | _ => false)
    || globalFullResponseFlag

/-- The object returned by `processFrontendOpenAPI`. -/
structure Generated where
  types : Writer × Writer
  implementation : Writer

/-- Lines 7-12. -/
def processFrontendOpenAPI (H : Helpers) (schema : Schema) (name language : String)
    (fullResponse : Bool) : Generated :=
  { types := generateTypesFromOpenAPI H schema name fullResponse
    implementation := generateFrontendImplementationFromOpenAPI H schema name language
      fullResponse }

/-! ## An instance of the imported helpers and a sample document -/

/-- Modelled from the spec: `Capitalize` of section 3 (`capitalize` of `utils.mjs`, which
is not part of the sources): the first character is upper-cased. -/
def capitalizeModel (s : String) : String :=
  match s.data with
  | [] => ""
  | c :: cs => ⟨c.toUpper :: cs⟩

/-- Characters of a camel-cased word: separators are dropped and the character after a
separator is upper-cased. -/
def camelChars : Bool → List Char → List Char
  | _, [] => []
  | up, c :: cs =>
    if c = '-' ∨ c = '_' ∨ c = ' ' ∨ c = '.' then camelChars true cs
    else (if up then c.toUpper else c) :: camelChars false cs

/-- Modelled from the spec: `camelCase` of section 3 (the `camelcase` package, which is
not part of the sources): words separated by `-`, `_`, `.` or a blank are joined, each
but the first capitalised, the first character lower-cased. -/
def camelcaseModel (s : String) : String :=
  match camelChars false s.data with
  | [] => ""
  | c :: cs => ⟨c.toLower :: cs⟩

/-- Modelled from the spec: the operation-id generator of section 6
(`generateOperationId` of `@platformatic/client`, which is not part of the sources): the
declared id when it is fresh, otherwise an id built from the method and the declared id
or the path; the id is recorded among the seen ones. -/
def generateOperationIdModel (path method : String) (operation : OperationObject)
    (all : List String) : String × List String :=
  let operationId :=
    match operation.operationId with
    | some id => if all.contains id then method ++ capitalizeModel id else id
    | none => method ++ capitalizeModel (camelcaseModel (replaceAll path '/' "-"))
  (operationId, all ++ [operationId])

/-- Modelled from the spec: `contentTypeOf` of section 6 (`getResponseContentType` of
`utils.mjs`): the first declared media type, if any. -/
def getResponseContentTypeModel (response : ResponseObject) : Option String :=
  match response.content with
  | some (contentType :: _) => some contentType
  | _ => none

/-- Modelled from the spec: `responseShapesByDecodeMethod` of section 6
(`getResponseTypes` of `utils.mjs`): the status literals decoded as JSON and those
decoded as text. -/
def getResponseTypesModel (responses : Responses) : List (String × List String) :=
  [("json", (responses.filter (fun e =>
      getResponseContentTypeModel e.2 = some "application/json")).map (fun e => e.1)),
   ("text", (responses.filter (fun e =>
      getResponseContentTypeModel e.2 ≠ some "application/json")).map (fun e => e.1))]

/-- Modelled from the spec: `allSuccessAndErrorCodes` of section 6 (`getAllResponseCodes`
of `utils.mjs`): the status literals in order. -/
def getAllResponseCodesModel (responses : Responses) : List String :=
  responses.map (fun e => e.1)

/-- Modelled from the spec: `isPlainJson200` of section 6 (`is200JsonResponse` of
`utils.mjs`): a `200` response with a JSON content type is declared. -/
def is200JsonResponseModel (responses : Responses) : Bool :=
  responses.any (fun e =>
    e.1 = "200" ∧ getResponseContentTypeModel e.2 = some "application/json")

/-- Modelled from the spec: the shape renderer of section 6 (`writeOperations` of
`openapi-common.mjs`), reduced to the call signature it writes per operation. -/
def writeOperationsModel (interfaces writer : Writer) (operations : List OperationRecord)
    (_fullResponse : Bool) (_schema : Schema) : Writer × Writer :=
  (interfaces, operations.foldl (fun writer operation =>
    let operationName := capitalizeModel (camelcaseModel operation.operation.operationId)
    writer.writeLine (operation.operation.operationId ++ "(req: " ++ operationName
      ++ "Request): Promise<" ++ operationName ++ "Responses>;")) writer)

/-- The helpers used in the examples. -/
def sampleHelpers : Helpers :=
  { capitalize := capitalizeModel
    camelcase := camelcaseModel
    generateOperationId := generateOperationIdModel
    getResponseContentType := getResponseContentTypeModel
    getResponseTypes := getResponseTypesModel
    getAllResponseCodes := getAllResponseCodesModel
    is200JsonResponse := is200JsonResponseModel
    writeOperations := writeOperationsModel }

/-- A JSON response object. -/
def jsonResponse : ResponseObject := { content := some ["application/json"] }

/-- A response object without content. -/
def emptyResponse : ResponseObject := { content := none }

/-- A document with four operations on two paths. -/
def sampleSchema : Schema :=
  { paths :=
      [("/movies",
        [("post", { operationId := some "createMovie",
                    parameters := some [{ name := "x-trace", in_ := "header" }],
                    responses := [("201", jsonResponse), ("202", emptyResponse),
                                  ("400", jsonResponse)] }),
         ("get", { operationId := some "getMovies",
                   parameters := some [{ name := "limit", in_ := "query" },
                                       { name := "x-trace", in_ := "header" },
                                       { name := "offset", in_ := "query" }],
                   responses := [("200", jsonResponse)] })]),
       ("/movies/\x7bid\x7d",
        [("get", { operationId := some "getMovieById",
                   parameters := some [{ name := "id", in_ := "path" }],
                   responses := [("200", jsonResponse), ("404", jsonResponse)] }),
         ("delete", { operationId := some "deleteMovie",
                      parameters := none,
                      responses := [("204", emptyResponse)] })])] }

/-- The record extracted for `POST /movies` of the sample document. -/
def createMovieRecord : OperationRecord :=
  { path := "/movies", method := "post",
    operation := { operationId := "createMovie",
                   parameters := some [{ name := "x-trace", in_ := "header" }],
                   responses := [("201", jsonResponse), ("202", emptyResponse),
                                 ("400", jsonResponse)] } }

/-- The record extracted for `GET /movies/{id}` of the sample document. -/
def getMovieByIdRecord : OperationRecord :=
  { path := "/movies/\x7bid\x7d", method := "get",
    operation := { operationId := "getMovieById",
                   parameters := some [{ name := "id", in_ := "path" }],
                   responses := [("200", jsonResponse), ("404", jsonResponse)] } }

/-! ## Path templates in the words of the specification -/

/-- A piece of a path template: literal text or a `{name}` placeholder. -/
inductive Segment where
  | literal (text : String)
  | placeholder (name : String)
  deriving DecidableEq, Repr

/-- The text a segment carries: the literal text or the placeholder name. -/
def Segment.text : Segment → String
  | Segment.literal text => text
  | Segment.placeholder name => name

/-- The path template written in the document: a placeholder is `{name}`. -/
def pathOf : List Segment → String
  | [] => ""
  | Segment.literal text :: rest => text ++ pathOf rest
  | Segment.placeholder name :: rest => "\x7b" ++ name ++ "\x7d" ++ pathOf rest

/-- The expected template: each `{name}` replaced by `${request['name']}`, every other
character unchanged. -/
def templateOf : List Segment → String
  | [] => ""
  | Segment.literal text :: rest => text ++ templateOf rest
  | Segment.placeholder name :: rest => "$\x7brequest['" ++ name ++ "']\x7d" ++ templateOf rest

/-- Placeholders are well formed and not nested: neither the literal text nor a
placeholder name contains a brace. -/
def WellFormedPath (segments : List Segment) : Prop :=
  ∀ segment ∈ segments, '\x7b' ∉ segment.text.data ∧ '\x7d' ∉ segment.text.data

instance (segments : List Segment) : Decidable (WellFormedPath segments) :=
  inferInstanceAs (Decidable (∀ segment ∈ segments,
    '\x7b' ∉ segment.text.data ∧ '\x7d' ∉ segment.text.data))

/-- The value of the template literal `templateOf segments` for a request: the
interpolation `${request['name']}` yields what the request holds under `name`. -/
def evalTemplate (request : String → String) : List Segment → String
  | [] => ""
  | Segment.literal text :: rest => text ++ evalTemplate request rest
  | Segment.placeholder name :: rest => request name ++ evalTemplate request rest

/-- The path `/orgs/{orgId}/members/{memberId}`. -/
def membersPath : List Segment :=
  [Segment.literal "/orgs/", Segment.placeholder "orgId", Segment.literal "/members/",
   Segment.placeholder "memberId"]

/-- The request `{orgId: "a", memberId: "b"}`. -/
def membersRequest (name : String) : String :=
  if name = "orgId" then "a" else if name = "memberId" then "b" else "undefined"

/-! ## Equality of two outputs up to type annotations -/

/-- Pairs of writer calls that differ only by a type import, a type annotation or a cast:
the call made for the typed dialect on the left, the call made for the untyped dialect
on the right.  In every pair the names and the lists the two texts mention are the
same. -/
inductive Annotated : Cmd → Cmd → Prop
  | typeImport (text : String) (h : startsWith text "import type " = true) :
      Annotated (Cmd.conditionalWriteLine true text) (Cmd.conditionalWriteLine false text)
  | setBaseUrl :
      Annotated
        (Cmd.writeLine
          "export const setBaseUrl = (newUrl: string) : void => \x7b baseUrl = newUrl \x7d")
        (Cmd.writeLine "export const setBaseUrl = (newUrl) => \x7b baseUrl = newUrl \x7d")
  | headersToJSON :
      Annotated (Cmd.write "function headersToJSON(headers: Headers): Object ")
        (Cmd.write "function headersToJSON(headers) ")
  | output :
      Annotated (Cmd.writeLine "const output = \x7b\x7d as any")
        (Cmd.writeLine "const output = \x7b\x7d")
  | functionHead (f a b : String) :
      Annotated
        (Cmd.write ("const " ++ f ++ " = async (url: string, request: Types." ++ a
          ++ "): Promise<Types." ++ b ++ "> =>"))
        (Cmd.write ("async function " ++ f ++ " (url, request)"))
  | queryParameters (t items : String) :
      Annotated
        (Cmd.writeLine ("const queryParameters" ++ (": (keyof Types." ++ t ++ ")[] ") ++ " = ["
          ++ items ++ "]"))
        (Cmd.writeLine ("const queryParameters" ++ "" ++ " = [" ++ items ++ "]"))
  | statusCast (t : String) :
      Annotated (Cmd.write (" as " ++ t ++ ",")) (Cmd.write ",")
  | exportHead (op iface a b : String) :
      Annotated
        (Cmd.write ("export const " ++ op ++ ": " ++ iface ++ "['" ++ op
          ++ "'] = async (request: Types." ++ a ++ "): Promise<Types." ++ b ++ "> =>"))
        (Cmd.write ("export const " ++ op ++ " = async (request) =>"))
  | build :
      Annotated (Cmd.write "export default function build (url: string)")
        (Cmd.write "export default function build (url)")

/-- Writer calls made for the typed dialect only: a compiler directive comment and the
`as any` cast. -/
inductive TypedOnly : Cmd → Prop
  | tsIgnore : TypedOnly (Cmd.writeLine "/* @ts-ignore */")
  | asAny : TypedOnly (Cmd.write " as any")

/-- Writer calls made for the untyped dialect only: the JSDoc type comments. -/
inductive UntypedOnly : Cmd → Prop
  | jsdoc (text : String) (h : startsWith text "/**  @type " = true) :
      UntypedOnly (Cmd.writeLine text)

/-- Two outputs carry the same runtime logic: they are the same sequence of writer calls
except for type imports, annotations and casts of the typed one (left) and JSDoc
comments of the untyped one (right). -/
inductive SameRuntimeLogic : List Cmd → List Cmd → Prop
  | nil : SameRuntimeLogic [] []
  | same (c : Cmd) (typed untyped : List Cmd) :
      SameRuntimeLogic typed untyped → SameRuntimeLogic (c :: typed) (c :: untyped)
  | annotated (a b : Cmd) (typed untyped : List Cmd) :
      Annotated a b → SameRuntimeLogic typed untyped →
      SameRuntimeLogic (a :: typed) (b :: untyped)
  | typedOnly (a : Cmd) (typed untyped : List Cmd) :
      TypedOnly a → SameRuntimeLogic typed untyped → SameRuntimeLogic (a :: typed) untyped
  | untypedOnly (b : Cmd) (typed untyped : List Cmd) :
      UntypedOnly b → SameRuntimeLogic typed untyped → SameRuntimeLogic typed (b :: untyped)

/-! ## The emitted query-parameter loop, run on a request -/

/-- A value held by a request payload under a key. -/
inductive JsValue where
  | undefined
  | null
  | boolean (b : Bool)
  | number (n : Int)
  | string (s : String)
  deriving DecidableEq, Repr

/-- Truthiness of a value, as tested by `if (request[qp])`. -/
def JsValue.truthy : JsValue → Bool
  | JsValue.undefined => false
  | JsValue.null => false
  | JsValue.boolean b => b
  | JsValue.number n => decide (n ≠ 0)
  | JsValue.string s => decide (s ≠ "")

/-- The value of `v?.toString() || ''`. -/
def JsValue.toStringOrEmpty : JsValue → String
  | JsValue.undefined => ""
  | JsValue.null => ""
  | JsValue.boolean b => if b then "true" else "false"
  | JsValue.number n => toString n
  | JsValue.string s => s

/-- A request payload: its own properties in insertion order. -/
abbrev Request := List (String × JsValue)

/-- The value of `request[key]`. -/
def Request.get (request : Request) (key : String) : JsValue :=
  match request.lookup key with
  | some value => value
  | none => JsValue.undefined

/-- The payload after `delete request[key]`. -/
def Request.delete (request : Request) (key : String) : Request :=
  request.filter (fun entry => entry.1 ≠ key)

/-- The statements written at lines 149-155,
`queryParameters.forEach((qp) => { if (request[qp]) { searchParams.append(qp,
request[qp]?.toString() || ''); delete request[qp] } })`, run on the declared query
parameters and a request: the pairs appended to `searchParams` and the payload left. -/
def runQueryParameters (queryParameters : List String) (request : Request) :
    List (String × String) × Request :=
  queryParameters.foldl (fun state qp =>
    let searchParams := state.1
    let request := state.2
    if (request.get qp).truthy then
      (searchParams ++ [(qp, (request.get qp).toStringOrEmpty)], request.delete qp)
    else (searchParams, request)) ([], request)

/-- The value of `searchParams.toString()` for pairs that need no escaping. -/
def searchParamsToString (searchParams : List (String × String)) : String :=
  join (searchParams.map (fun pair => pair.1 ++ "=" ++ pair.2)) "&"

/-- A document with one `GET` operation declaring a query and a header parameter. -/
def listSchema : Schema :=
  { paths :=
      [("/movies",
        [("get", { operationId := some "getMovies",
                   parameters := some [{ name := "limit", in_ := "query" },
                                       { name := "x-trace", in_ := "header" }],
                   responses := [("200", jsonResponse)] })])] }

/-! ## The writer is only appended to -/

theorem foldl_append_only {α : Type} (f : Writer → α → Writer)
    (hf : ∀ (w : Writer) (a : α), f w a = w ++ f [] a) (l : List α) (w : Writer) :
    l.foldl f w = w ++ l.flatMap (f []) := by
  induction l generalizing w with
  | nil => simp
  | cons a l ih => rw [List.foldl_cons, ih, hf]; simp

theorem writePreamble_append (name language camelCaseName : String) (w : Writer) :
    writePreamble name language camelCaseName w
      = w ++ writePreamble name language camelCaseName [] := by
  unfold writePreamble
  split <;> simp [Writer.write, Writer.writeLine, Writer.conditionalWriteLine, Writer.blankLine,
    Writer.blankLineIfLastNot, Writer.block, Writer.inlineBlock]

theorem writeQueryParameters_append (language operationRequestName : String)
    (queryParams : List String) (w : Writer) :
    writeQueryParameters language operationRequestName queryParams w
      = w ++ writeQueryParameters language operationRequestName queryParams [] := by
  unfold writeQueryParameters
  split <;> simp [Writer.write, Writer.writeLine, Writer.blankLine, Writer.block,
    Writer.inlineBlock]

theorem writeHeadersDeclaration_append (method : String) (w : Writer) :
    writeHeadersDeclaration method w = w ++ writeHeadersDeclaration method [] := by
  unfold writeHeadersDeclaration
  split <;> simp [Writer.write, Writer.writeLine, Writer.block]

theorem writeHeaderParam_append (w : Writer) (param : String) :
    writeHeaderParam w param = w ++ writeHeaderParam [] param := by
  simp [writeHeaderParam, Writer.write, Writer.writeLine, Writer.block]

theorem writeHeaderParams_eq (headerParams : List String) (w : Writer) :
    writeHeaderParams headerParams w = w ++ headerParams.flatMap (writeHeaderParam []) :=
  foldl_append_only writeHeaderParam writeHeaderParam_append headerParams w

theorem writeFetch_append (method path : String) (queryParams : List String) (w : Writer) :
    writeFetch method path queryParams w = w ++ writeFetch method path queryParams [] := by
  unfold writeFetch
  split <;> simp [Writer.write, Writer.writeLine, Writer.quote, Writer.inlineBlock]

theorem writeRequest_append (language operationRequestName : String)
    (operation : OperationRecord) (queryParams headerParams : List String) (w : Writer) :
    writeRequest language operationRequestName operation queryParams headerParams w
      = w ++ writeRequest language operationRequestName operation queryParams headerParams [] := by
  unfold writeRequest
  simp only [Writer.blankLine]
  rw [writeFetch_append, writeHeaderParams_eq, writeHeadersDeclaration_append,
    writeQueryParameters_append]
  conv_rhs => rw [writeFetch_append, writeHeaderParams_eq, writeHeadersDeclaration_append]
  simp

theorem writeResponseGroup_append (language : String) (w : Writer)
    (group : String × List String) :
    writeResponseGroup language w group = w ++ writeResponseGroup language [] group := by
  by_cases h1 : group.2.length > 0 <;> by_cases h2 : language = "ts" <;>
    simp [writeResponseGroup, h1, h2, Writer.write, Writer.writeLine, Writer.block]

theorem writeFullResponse_append (H : Helpers) (language : String) (responses : Responses)
    (mappedResponses : List (String × List String)) (w : Writer) :
    writeFullResponse H language responses mappedResponses w
      = w ++ writeFullResponse H language responses mappedResponses [] := by
  unfold writeFullResponse
  simp only [foldl_append_only _ (writeResponseGroup_append language)]
  split <;> simp [Writer.write, Writer.writeLine, Writer.block]

theorem writePlainResponse_append (H : Helpers) (responses : Responses) (w : Writer) :
    writePlainResponse H responses w = w ++ writePlainResponse H responses [] := by
  unfold writePlainResponse
  split <;> simp [Writer.write, Writer.writeLine, Writer.blankLine, Writer.block]

theorem writeResponseDispatch_append (H : Helpers) (language : String) (responses : Responses)
    (currentFullResponse : Bool) (w : Writer) :
    writeResponseDispatch H language responses currentFullResponse w
      = w ++ writeResponseDispatch H language responses currentFullResponse [] := by
  unfold writeResponseDispatch
  split
  · exact writeFullResponse_append H language responses _ w
  · exact writePlainResponse_append H responses w

theorem writeFunctionHead_append (language underscoredOperationId operationRequestName
    operationResponseName : String) (w : Writer) :
    writeFunctionHead language underscoredOperationId operationRequestName
        operationResponseName w
      = w ++ writeFunctionHead language underscoredOperationId operationRequestName
        operationResponseName [] := by
  unfold writeFunctionHead
  split <;> simp [Writer.write]

theorem writeExport_append (name language camelCaseName operationId underscoredOperationId
    operationRequestName operationResponseName : String) (w : Writer) :
    writeExport name language camelCaseName operationId underscoredOperationId
        operationRequestName operationResponseName w
      = w ++ writeExport name language camelCaseName operationId underscoredOperationId
        operationRequestName operationResponseName [] := by
  unfold writeExport
  split <;> simp [Writer.write, Writer.writeLine, Writer.block]

theorem writeFactoryEntry_append (n : Nat) (w : Writer) (entry : Nat × String) :
    (if entry.1 = n then
        w.writeLine (entry.2 ++ ": " ++ ("_" ++ entry.2) ++ ".bind(url, ...arguments)")
      else w.writeLine (entry.2 ++ ": " ++ ("_" ++ entry.2) ++ ".bind(url, ...arguments)" ++ ","))
    = w ++ [Cmd.writeLine (entry.2 ++ ": " ++ ("_" ++ entry.2) ++ ".bind(url, ...arguments)"
        ++ (if entry.1 = n then "" else ","))] := by
  split <;> simp [Writer.writeLine]

theorem writeFactoryEntries_eq (allOperations : List String) (w : Writer) :
    writeFactoryEntries allOperations w
      = w ++ allOperations.enum.map (fun entry =>
          Cmd.writeLine (entry.2 ++ ": " ++ ("_" ++ entry.2) ++ ".bind(url, ...arguments)"
            ++ (if entry.1 = allOperations.length - 1 then "" else ","))) := by
  unfold writeFactoryEntries
  simp only [writeFactoryEntry_append]
  generalize allOperations.length - 1 = n
  generalize allOperations.enum = l
  induction l generalizing w with
  | nil => simp
  | cons a l ih => rw [List.foldl_cons, ih]; simp

theorem writeFactory_eq (language : String) (allOperations : List String) (w : Writer) :
    writeFactory language allOperations w
      = w ++ ([Cmd.write (if language = "ts" then "export default function build (url: string)"
                else "export default function build (url)"),
              Cmd.blockOpen, Cmd.write "return", Cmd.blockOpen]
          ++ allOperations.enum.map (fun entry =>
              Cmd.writeLine (entry.2 ++ ": " ++ ("_" ++ entry.2) ++ ".bind(url, ...arguments)"
                ++ (if entry.1 = allOperations.length - 1 then "" else ",")))
          ++ [Cmd.blockClose, Cmd.blockClose]) := by
  unfold writeFactory
  simp [Writer.write, Writer.block, writeFactoryEntries_eq]

theorem updateFullResponse_eq_classify (H : Helpers) (responses : Responses) (g : Bool) :
    updateFullResponse H responses g = classify H responses g := by
  unfold updateFullResponse classify
  generalize responses.filter (fun e => startsWith e.1 "2") = success
  match success with
  | [] => simp
  | [sole] => by_cases h : H.getResponseContentType sole.2 = none <;> simp [h]
  | _ :: _ :: _ => simp

theorem operationStep_writer (H : Helpers) (name language camelCaseName : String)
    (originalFullResponse : Bool) (st : LoopState) (operation : OperationRecord) :
    (operationStep H name language camelCaseName originalFullResponse st operation).writer
      = st.writer ++ operationCode H name language camelCaseName operation
          (updateFullResponse H operation.operation.responses st.currentFullResponse) := by
  unfold operationStep operationCode writeFunctionBody writeResponseDispatch
  simp only [Writer.block, Writer.blankLine]
  rw [writeExport_append]
  by_cases h : updateFullResponse H operation.operation.responses st.currentFullResponse = true
  · simp only [h, if_true]
    rw [writeFullResponse_append, writeRequest_append, writeFunctionHead_append]
    simp
  · simp only [h]
    rw [writePlainResponse_append, writeRequest_append, writeFunctionHead_append]
    simp

theorem loop_eq (H : Helpers) (name language camelCaseName : String) (fullResponse : Bool)
    (operations : List OperationRecord) (st : LoopState)
    (hst : st.currentFullResponse = fullResponse) :
    operations.foldl (operationStep H name language camelCaseName fullResponse) st
      = { writer := st.writer ++ operations.flatMap (fun operation =>
            operationCode H name language camelCaseName operation
              (classify H operation.operation.responses fullResponse)),
          allOperations := st.allOperations
            ++ operations.map (fun operation => operation.operation.operationId),
          currentFullResponse := fullResponse } := by
  induction operations generalizing st with
  | nil => cases st; simp_all
  | cons operation rest ih =>
    rw [List.foldl_cons, ih _ rfl, operationStep_writer, hst, updateFullResponse_eq_classify]
    simp [operationStep]

theorem generate_eq (H : Helpers) (schema : Schema) (name language : String)
    (fullResponse : Bool) :
    generateFrontendImplementationFromOpenAPI H schema name language fullResponse
      = writePreamble name language (H.capitalize (H.camelcase name)) []
        ++ (extractOperations H schema.paths).flatMap (fun operation =>
            operationCode H name language (H.capitalize (H.camelcase name)) operation
              (classify H operation.operation.responses fullResponse))
        ++ writeFactory language
            ((extractOperations H schema.paths).map
              (fun operation => operation.operation.operationId)) [] := by
  unfold generateFrontendImplementationFromOpenAPI
  simp only []
  rw [loop_eq H name language _ fullResponse _ _ rfl, writeFactory_eq, writeFactory_eq]
  simp

/-! ## Response classification (C1) -/

theorem writeFullResponse_ne_writePlainResponse (H : Helpers) (language : String)
    (responses : Responses) (mappedResponses : List (String × List String)) :
    writeFullResponse H language responses mappedResponses []
      ≠ writePlainResponse H responses [] := by
  intro h
  have hlen := congrArg List.length h
  unfold writeFullResponse at h
  simp only [foldl_append_only _ (writeResponseGroup_append language)] at h
  cases mappedResponses with
  | nil =>
    by_cases hl : language = "ts" <;> by_cases hj : H.is200JsonResponse responses = true <;>
      simp [writePlainResponse, hl, hj, Writer.write, Writer.writeLine, Writer.blankLine,
        Writer.block] at h
  | cons group rest =>
    by_cases hg : group.2.length > 0
    · by_cases hl : language = "ts" <;> by_cases hj : H.is200JsonResponse responses = true <;>
        simp [writePlainResponse, writeResponseGroup, hg, hl, hj, Writer.write,
          Writer.writeLine, Writer.blankLine, Writer.block] at h
    · exfalso
      revert hlen
      by_cases hl : language = "ts" <;> by_cases hj : H.is200JsonResponse responses = true <;>
        simp [writeFullResponse, foldl_append_only _ (writeResponseGroup_append language),
          writePlainResponse, hl, hj, Writer.write, Writer.writeLine,
          Writer.blankLine, Writer.block] <;> omega

/-- C1: at every position `i` of the operation sequence, the iteration of the loop run
from the state the preceding iterations left writes the code of that operation with the
full-response (envelope) branch exactly when the operation's classification holds, the
classification being: the number of response keys starting with "2" is not 1, or the
sole such response has a null content type, or the global flag is set.  The state left by
the preceding operations does not enter the decision, the two branches are always
different pieces of code, and the whole output is the concatenation of these
per-operation pieces between the preamble and the factory. -/
theorem fullResponse_decided_per_operation (H : Helpers) (schema : Schema)
    (name language : String) (fullResponse : Bool) (i : Nat)
    (hi : i < (extractOperations H schema.paths).length) :
    (operationStep H name language (H.capitalize (H.camelcase name)) fullResponse
        (((extractOperations H schema.paths).take i).foldl
          (operationStep H name language (H.capitalize (H.camelcase name)) fullResponse)
          (initialState name language (H.capitalize (H.camelcase name)) fullResponse))
        ((extractOperations H schema.paths).get ⟨i, hi⟩)).writer
      = (((extractOperations H schema.paths).take i).foldl
          (operationStep H name language (H.capitalize (H.camelcase name)) fullResponse)
          (initialState name language (H.capitalize (H.camelcase name)) fullResponse)).writer
        ++ operationCode H name language (H.capitalize (H.camelcase name))
            ((extractOperations H schema.paths).get ⟨i, hi⟩)
            (classify H ((extractOperations H schema.paths).get ⟨i, hi⟩).operation.responses
              fullResponse)
    ∧ (∀ responses : Responses,
        classify H responses fullResponse = true ↔
          ((responses.filter (fun e => startsWith e.1 "2")).length ≠ 1
            ∨ (∃ sole, responses.filter (fun e => startsWith e.1 "2") = [sole]
                ∧ H.getResponseContentType sole.2 = none)
            ∨ fullResponse = true))
    ∧ (∀ responses : Responses,
        writeFullResponse H language responses (H.getResponseTypes responses) []
          ≠ writePlainResponse H responses [])
    ∧ generateFrontendImplementationFromOpenAPI H schema name language fullResponse
      = writePreamble name language (H.capitalize (H.camelcase name)) []
        ++ (extractOperations H schema.paths).flatMap (fun operation =>
            operationCode H name language (H.capitalize (H.camelcase name)) operation
              (classify H operation.operation.responses fullResponse))
        ++ writeFactory language
            ((extractOperations H schema.paths).map
              (fun operation => operation.operation.operationId)) [] := by
  refine ⟨?_, ?_, ?_, generate_eq H schema name language fullResponse⟩
  · rw [operationStep_writer, loop_eq H name language _ fullResponse _ _ rfl,
      updateFullResponse_eq_classify]
  · intro responses
    unfold classify
    generalize responses.filter (fun e => startsWith e.1 "2") = success
    match success with
    | [] => simp
    | [sole] => simp
    | _ :: _ :: _ => simp
  · intro responses
    exact writeFullResponse_ne_writePlainResponse H language responses _

/-- Witness of C1 on the sample document: the second operation (one JSON success
response) follows an operation that was forced into the envelope (two success responses)
and is still classified as plain. -/
theorem fullResponse_decided_per_operation_witness :
    1 < (extractOperations sampleHelpers sampleSchema.paths).length
    ∧ classify sampleHelpers
        ((extractOperations sampleHelpers sampleSchema.paths).get
          ⟨0, by decide⟩).operation.responses false = true
    ∧ classify sampleHelpers
        ((extractOperations sampleHelpers sampleSchema.paths).get
          ⟨1, by decide⟩).operation.responses false = false
    ∧ (operationStep sampleHelpers "movies" "js"
          (sampleHelpers.capitalize (sampleHelpers.camelcase "movies")) false
          (((extractOperations sampleHelpers sampleSchema.paths).take 1).foldl
            (operationStep sampleHelpers "movies" "js"
              (sampleHelpers.capitalize (sampleHelpers.camelcase "movies")) false)
            (initialState "movies" "js"
              (sampleHelpers.capitalize (sampleHelpers.camelcase "movies")) false))
          ((extractOperations sampleHelpers sampleSchema.paths).get ⟨1, by decide⟩)).writer
        = (((extractOperations sampleHelpers sampleSchema.paths).take 1).foldl
            (operationStep sampleHelpers "movies" "js"
              (sampleHelpers.capitalize (sampleHelpers.camelcase "movies")) false)
            (initialState "movies" "js"
              (sampleHelpers.capitalize (sampleHelpers.camelcase "movies")) false)).writer
          ++ operationCode sampleHelpers "movies" "js"
              (sampleHelpers.capitalize (sampleHelpers.camelcase "movies"))
              ((extractOperations sampleHelpers sampleSchema.paths).get ⟨1, by decide⟩)
              (classify sampleHelpers
                ((extractOperations sampleHelpers sampleSchema.paths).get
                  ⟨1, by decide⟩).operation.responses false) :=
  ⟨by decide, by decide, by decide,
    (fullResponse_decided_per_operation sampleHelpers sampleSchema "movies" "js" false 1
      (by decide)).1⟩

/-! ## Parameter routing (C3) -/

/-- C3: `queryParams` is the sequence of the names of the declared parameters whose
location is `query`, and `headerParams` that of the parameters whose location is
`header`, both in source order: each is a subsequence of the declared names, a path
parameter is kept by neither filter, and both are empty when the operation declares no
parameters. -/
theorem parameter_routing (operation : OperationRecord) :
    queryParamsOf operation
      = ((operation.operation.parameters.getD []).filter (fun p => p.in_ = "query")).map
          (fun p => p.name)
    ∧ headerParamsOf operation
      = ((operation.operation.parameters.getD []).filter (fun p => p.in_ = "header")).map
          (fun p => p.name)
    ∧ (queryParamsOf operation).Sublist
        ((operation.operation.parameters.getD []).map (fun p => p.name))
    ∧ (headerParamsOf operation).Sublist
        ((operation.operation.parameters.getD []).map (fun p => p.name))
    ∧ (∀ p ∈ operation.operation.parameters.getD [], p.in_ = "path" →
        p ∉ (operation.operation.parameters.getD []).filter (fun p => p.in_ = "query")
        ∧ p ∉ (operation.operation.parameters.getD []).filter (fun p => p.in_ = "header"))
    ∧ (operation.operation.parameters = none →
        queryParamsOf operation = [] ∧ headerParamsOf operation = []) := by
  have hq : queryParamsOf operation
      = ((operation.operation.parameters.getD []).filter (fun p => p.in_ = "query")).map
          (fun p => p.name) := by
    unfold queryParamsOf getQueryParamsString
    cases operation.operation.parameters <;> simp
  have hh : headerParamsOf operation
      = ((operation.operation.parameters.getD []).filter (fun p => p.in_ = "header")).map
          (fun p => p.name) := by
    unfold headerParamsOf getHeaderParams
    cases operation.operation.parameters <;> simp
  refine ⟨hq, hh, ?_, ?_, ?_, ?_⟩
  · rw [hq]; exact (List.filter_sublist _).map _
  · rw [hh]; exact (List.filter_sublist _).map _
  · intro p _ hp
    constructor <;> · intro hmem; have := (List.mem_filter.mp hmem).2; simp [hp] at this
  · intro hnone
    rw [hq, hh, hnone]; simp

/-! ## Response dispatch (C4, C5) -/

theorem writeRequest_eq (language operationRequestName : String) (operation : OperationRecord)
    (queryParams headerParams : List String) :
    writeRequest language operationRequestName operation queryParams headerParams []
      = writeHeaderParams headerParams (writeHeadersDeclaration operation.method
          (writeQueryParameters language operationRequestName queryParams []))
        ++ [Cmd.blankLine]
        ++ writeFetch operation.method operation.path queryParams []
        ++ [Cmd.blankLine] := by
  unfold writeRequest
  simp only [Writer.blankLine]
  rw [writeFetch_append]

theorem writeResponseGroups_eq (language : String)
    (mappedResponses : List (String × List String)) :
    mappedResponses.flatMap (writeResponseGroup language [])
      = (mappedResponses.filter (fun group => group.2.length > 0)).flatMap (fun group =>
          [Cmd.writeLine ("const " ++ group.1 ++ "Responses = [" ++ join group.2 ", " ++ "]"),
           Cmd.write ("if (" ++ group.1 ++ "Responses.includes(response.status)) "),
           Cmd.blockOpen, Cmd.write "return ", Cmd.blockOpen,
           Cmd.write "statusCode: response.status",
           Cmd.write (if language = "ts" then " as " ++ join group.2 " | " ++ "," else ","),
           Cmd.writeLine "headers: headersToJSON(response.headers),",
           Cmd.writeLine ("body: await response." ++ group.1 ++ "()"),
           Cmd.blockClose, Cmd.blockClose]) := by
  induction mappedResponses with
  | nil => simp
  | cons group rest ih =>
    rw [List.flatMap_cons, ih]
    by_cases hg : group.2.length > 0 <;> by_cases hl : language = "ts" <;>
      simp [List.filter_cons, writeResponseGroup, hg, hl, Writer.write, Writer.writeLine,
        Writer.block]

theorem writeFullResponse_eq (H : Helpers) (language : String) (responses : Responses)
    (mappedResponses : List (String × List String)) :
    writeFullResponse H language responses mappedResponses []
      = (mappedResponses.filter (fun group => group.2.length > 0)).flatMap (fun group =>
          [Cmd.writeLine ("const " ++ group.1 ++ "Responses = [" ++ join group.2 ", " ++ "]"),
           Cmd.write ("if (" ++ group.1 ++ "Responses.includes(response.status)) "),
           Cmd.blockOpen, Cmd.write "return ", Cmd.blockOpen,
           Cmd.write "statusCode: response.status",
           Cmd.write (if language = "ts" then " as " ++ join group.2 " | " ++ "," else ","),
           Cmd.writeLine "headers: headersToJSON(response.headers),",
           Cmd.writeLine ("body: await response." ++ group.1 ++ "()"),
           Cmd.blockClose, Cmd.blockClose])
        ++ ([Cmd.write "if (response.headers.get('content-type') === 'application/json') ",
             Cmd.blockOpen, Cmd.write "return ", Cmd.blockOpen,
             Cmd.write "statusCode: response.status",
             Cmd.write (if language = "ts" then
               " as " ++ join (H.getAllResponseCodes responses) " | " ++ "," else ","),
             Cmd.writeLine "headers: headersToJSON(response.headers),",
             Cmd.write "body: await response.json()"]
            ++ (if language = "ts" then [Cmd.write " as any"] else [])
            ++ [Cmd.blockClose, Cmd.blockClose])
        ++ ([Cmd.write "return ", Cmd.blockOpen,
             Cmd.write "statusCode: response.status",
             Cmd.write (if language = "ts" then
               " as " ++ join (H.getAllResponseCodes responses) " | " ++ "," else ","),
             Cmd.writeLine "headers: headersToJSON(response.headers),",
             Cmd.write "body: await response.text()"]
            ++ (if language = "ts" then [Cmd.write " as any"] else [])
            ++ [Cmd.blockClose]) := by
  unfold writeFullResponse
  simp only [foldl_append_only _ (writeResponseGroup_append language)]
  rw [← writeResponseGroups_eq]
  by_cases hl : language = "ts" <;>
    simp [hl, Writer.write, Writer.writeLine, Writer.block]

/-- C4: when an operation is emitted in full-response mode, the function body is the
request code, which ends with the `fetch` call and a blank line, followed by: for each
decode-method group with a non-empty status list, in the key order of the mapping, the
declaration of the list and a return of the envelope guarded by
`<method>Responses.includes(response.status)` whose body is decoded by
`response.<method>()`; then a return of the envelope guarded by the content-type header
being `application/json`, decoded by `json()`; then an unguarded return of the envelope
decoded by `text()`.  No statement of this branch throws. -/
theorem full_response_dispatch (H : Helpers) (name language camelCaseName : String)
    (originalFullResponse : Bool) (st : LoopState) (operation : OperationRecord)
    (h : updateFullResponse H operation.operation.responses st.currentFullResponse = true) :
    (operationStep H name language camelCaseName originalFullResponse st operation).writer
      = st.writer
        ++ writeFunctionHead language ("_" ++ operation.operation.operationId)
            (H.capitalize (H.camelcase operation.operation.operationId) ++ "Request")
            (H.capitalize (H.camelcase operation.operation.operationId) ++ "Responses") []
        ++ [Cmd.blockOpen]
        ++ (writeHeaderParams (headerParamsOf operation)
              (writeHeadersDeclaration operation.method
                (writeQueryParameters language
                  (H.capitalize (H.camelcase operation.operation.operationId) ++ "Request")
                  (queryParamsOf operation) []))
            ++ [Cmd.blankLine]
            ++ writeFetch operation.method operation.path (queryParamsOf operation) []
            ++ [Cmd.blankLine])
        ++ (((H.getResponseTypes operation.operation.responses).filter
              (fun group => group.2.length > 0)).flatMap (fun group =>
            [Cmd.writeLine
               ("const " ++ group.1 ++ "Responses = [" ++ join group.2 ", " ++ "]"),
             Cmd.write ("if (" ++ group.1 ++ "Responses.includes(response.status)) "),
             Cmd.blockOpen, Cmd.write "return ", Cmd.blockOpen,
             Cmd.write "statusCode: response.status",
             Cmd.write (if language = "ts" then " as " ++ join group.2 " | " ++ "," else ","),
             Cmd.writeLine "headers: headersToJSON(response.headers),",
             Cmd.writeLine ("body: await response." ++ group.1 ++ "()"),
             Cmd.blockClose, Cmd.blockClose])
          ++ ([Cmd.write "if (response.headers.get('content-type') === 'application/json') ",
               Cmd.blockOpen, Cmd.write "return ", Cmd.blockOpen,
               Cmd.write "statusCode: response.status",
               Cmd.write (if language = "ts" then
                 " as " ++ join (H.getAllResponseCodes operation.operation.responses) " | "
                   ++ "," else ","),
               Cmd.writeLine "headers: headersToJSON(response.headers),",
               Cmd.write "body: await response.json()"]
              ++ (if language = "ts" then [Cmd.write " as any"] else [])
              ++ [Cmd.blockClose, Cmd.blockClose])
          ++ ([Cmd.write "return ", Cmd.blockOpen,
               Cmd.write "statusCode: response.status",
               Cmd.write (if language = "ts" then
                 " as " ++ join (H.getAllResponseCodes operation.operation.responses) " | "
                   ++ "," else ","),
               Cmd.writeLine "headers: headersToJSON(response.headers),",
               Cmd.write "body: await response.text()"]
              ++ (if language = "ts" then [Cmd.write " as any"] else [])
              ++ [Cmd.blockClose]))
        ++ [Cmd.blockClose, Cmd.blankLine]
        ++ writeExport name language camelCaseName operation.operation.operationId
            ("_" ++ operation.operation.operationId)
            (H.capitalize (H.camelcase operation.operation.operationId) ++ "Request")
            (H.capitalize (H.camelcase operation.operation.operationId) ++ "Responses") []
    ∧ Cmd.writeLine "throw new Error(await response.text())"
        ∉ writeFullResponse H language operation.operation.responses
            (H.getResponseTypes operation.operation.responses) [] := by
  constructor
  · rw [operationStep_writer, h]
    simp only [operationCode, if_true, writeFullResponse_eq, writeRequest_eq,
      List.append_assoc]
  · rw [writeFullResponse_eq]
    intro hmem
    simp only [List.mem_append, List.mem_flatMap, List.mem_cons, List.mem_singleton] at hmem
    rcases hmem with (⟨group, _, hg⟩ | hj) | ht
    · rcases hg with hg | hg | hg | hg | hg | hg | hg | hg | hg | hg | hg | hg
      all_goals first
        | cases hg
        | (simp only [Cmd.writeLine.injEq] at hg
           have hd := congrArg String.data hg
           simp at hd)
    · by_cases hl : language = "ts" <;> simp [hl] at hj
    · by_cases hl : language = "ts" <;> simp [hl] at ht

/-- Witness of C4: `POST /movies` of the sample document declares two success responses,
so it is emitted in full-response mode; its dispatch code is spelled out. -/
theorem full_response_dispatch_witness :
    updateFullResponse sampleHelpers createMovieRecord.operation.responses false = true
    ∧ Cmd.writeLine "throw new Error(await response.text())"
        ∉ writeFullResponse sampleHelpers "js" createMovieRecord.operation.responses
            (sampleHelpers.getResponseTypes createMovieRecord.operation.responses) []
    ∧ writeFullResponse sampleHelpers "js" createMovieRecord.operation.responses
          (sampleHelpers.getResponseTypes createMovieRecord.operation.responses) []
        = [Cmd.writeLine "const jsonResponses = [201, 400]",
           Cmd.write "if (jsonResponses.includes(response.status)) ",
           Cmd.blockOpen, Cmd.write "return ", Cmd.blockOpen,
           Cmd.write "statusCode: response.status", Cmd.write ",",
           Cmd.writeLine "headers: headersToJSON(response.headers),",
           Cmd.writeLine "body: await response.json()",
           Cmd.blockClose, Cmd.blockClose,
           Cmd.writeLine "const textResponses = [202]",
           Cmd.write "if (textResponses.includes(response.status)) ",
           Cmd.blockOpen, Cmd.write "return ", Cmd.blockOpen,
           Cmd.write "statusCode: response.status", Cmd.write ",",
           Cmd.writeLine "headers: headersToJSON(response.headers),",
           Cmd.writeLine "body: await response.text()",
           Cmd.blockClose, Cmd.blockClose,
           Cmd.write "if (response.headers.get('content-type') === 'application/json') ",
           Cmd.blockOpen, Cmd.write "return ", Cmd.blockOpen,
           Cmd.write "statusCode: response.status", Cmd.write ",",
           Cmd.writeLine "headers: headersToJSON(response.headers),",
           Cmd.write "body: await response.json()",
           Cmd.blockClose, Cmd.blockClose,
           Cmd.write "return ", Cmd.blockOpen,
           Cmd.write "statusCode: response.status", Cmd.write ",",
           Cmd.writeLine "headers: headersToJSON(response.headers),",
           Cmd.write "body: await response.text()",
           Cmd.blockClose] :=
  ⟨by decide,
    (full_response_dispatch sampleHelpers "movies" "js" "Movies" false
      (initialState "movies" "js" "Movies" false) createMovieRecord (by decide)).2,
    by decide⟩

/-- C5: when an operation is emitted in non-full-response mode, the function body is the
request code, which ends with the `fetch` call and a blank line, followed by exactly: a
guard `if (!response.ok)` whose block throws `new Error(await response.text())`, and a
single return of the decoded body, `response.json()` when `is200JsonResponse` holds of
the responses and `response.text()` otherwise. -/
theorem plain_response_dispatch (H : Helpers) (name language camelCaseName : String)
    (originalFullResponse : Bool) (st : LoopState) (operation : OperationRecord)
    (h : updateFullResponse H operation.operation.responses st.currentFullResponse = false) :
    (operationStep H name language camelCaseName originalFullResponse st operation).writer
      = st.writer
        ++ writeFunctionHead language ("_" ++ operation.operation.operationId)
            (H.capitalize (H.camelcase operation.operation.operationId) ++ "Request")
            (H.capitalize (H.camelcase operation.operation.operationId) ++ "Responses") []
        ++ [Cmd.blockOpen]
        ++ (writeHeaderParams (headerParamsOf operation)
              (writeHeadersDeclaration operation.method
                (writeQueryParameters language
                  (H.capitalize (H.camelcase operation.operation.operationId) ++ "Request")
                  (queryParamsOf operation) []))
            ++ [Cmd.blankLine]
            ++ writeFetch operation.method operation.path (queryParamsOf operation) []
            ++ [Cmd.blankLine])
        ++ [Cmd.write "if (!response.ok)", Cmd.blockOpen,
            Cmd.writeLine "throw new Error(await response.text())", Cmd.blockClose,
            Cmd.blankLine,
            Cmd.writeLine (if H.is200JsonResponse operation.operation.responses = true
              then "return await response.json()" else "return await response.text()")]
        ++ [Cmd.blockClose, Cmd.blankLine]
        ++ writeExport name language camelCaseName operation.operation.operationId
            ("_" ++ operation.operation.operationId)
            (H.capitalize (H.camelcase operation.operation.operationId) ++ "Request")
            (H.capitalize (H.camelcase operation.operation.operationId) ++ "Responses") [] := by
  rw [operationStep_writer, h]
  have hp : writePlainResponse H operation.operation.responses []
      = [Cmd.write "if (!response.ok)", Cmd.blockOpen,
          Cmd.writeLine "throw new Error(await response.text())", Cmd.blockClose,
          Cmd.blankLine,
          Cmd.writeLine (if H.is200JsonResponse operation.operation.responses = true
            then "return await response.json()" else "return await response.text()")] := by
    unfold writePlainResponse
    by_cases hj : H.is200JsonResponse operation.operation.responses = true <;>
      simp [hj, Writer.write, Writer.writeLine, Writer.blankLine, Writer.block]
  simp only [operationCode, Bool.false_eq_true, if_false, hp, writeRequest_eq,
    List.append_assoc]

/-- Witness of C5: `GET /movies/{id}` of the sample document declares one JSON success
response, so with the global flag unset it is emitted in non-full-response mode. -/
theorem plain_response_dispatch_witness :
    updateFullResponse sampleHelpers getMovieByIdRecord.operation.responses false = false
    ∧ (operationStep sampleHelpers "movies" "js" "Movies" false
          (initialState "movies" "js" "Movies" false) getMovieByIdRecord).writer
        = (initialState "movies" "js" "Movies" false).writer
          ++ [Cmd.write "async function _getMovieById (url, request)",
              Cmd.blockOpen,
              Cmd.blankLine,
              Cmd.write "const response = await fetch(`$\x7burl\x7d/movies/$\x7brequest['id']\x7d`)",
              Cmd.blankLine,
              Cmd.write "if (!response.ok)", Cmd.blockOpen,
              Cmd.writeLine "throw new Error(await response.text())", Cmd.blockClose,
              Cmd.blankLine,
              Cmd.writeLine "return await response.json()",
              Cmd.blockClose, Cmd.blankLine,
              Cmd.writeLine
                "/**  @type \x7bimport('./movies-types.d.ts').Movies['getMovieById']\x7d */",
              Cmd.write "export const getMovieById = async (request) =>",
              Cmd.blockOpen,
              Cmd.write "return await _getMovieById(baseUrl, request)",
              Cmd.blockClose] :=
  ⟨by decide,
    (plain_response_dispatch sampleHelpers "movies" "js" "Movies" false
      (initialState "movies" "js" "Movies" false) getMovieByIdRecord (by decide)).trans
      (by decide)⟩

/-! ## Path template substitution (C2) -/

theorem stringLiteralPath_data (path : String) :
    (stringLiteralPath path).data
      = path.data.flatMap (fun ch =>
          if ch = '\x7b' then "$\x7brequest['".data
          else if ch = '\x7d' then "']\x7d".data else [ch]) := by
  show (path.data.flatMap _).flatMap _ = _
  induction path.data with
  | nil => rfl
  | cons ch rest ih =>
    rw [List.flatMap_cons, List.flatMap_append, ih, List.flatMap_cons]
    congr 1
    by_cases h1 : ch = '\x7b'
    · subst h1; decide
    · by_cases h2 : ch = '\x7d'
      · subst h2; decide
      · simp [h1, h2]

theorem stringLiteralPath_append (a b : String) :
    stringLiteralPath (a ++ b) = stringLiteralPath a ++ stringLiteralPath b := by
  apply String.ext
  simp [stringLiteralPath_data, String.data_append]

theorem flatMap_subst_of_no_brace (chars : List Char) (h1 : '\x7b' ∉ chars)
    (h2 : '\x7d' ∉ chars) :
    chars.flatMap (fun ch =>
        if ch = '\x7b' then "$\x7brequest['".data
        else if ch = '\x7d' then "']\x7d".data else [ch]) = chars := by
  induction chars with
  | nil => rfl
  | cons ch rest ih =>
    simp only [List.mem_cons, not_or] at h1 h2
    rw [List.flatMap_cons, ih h1.2 h2.2]
    have e1 : ch ≠ '\x7b' := fun e => h1.1 e.symm
    have e2 : ch ≠ '\x7d' := fun e => h2.1 e.symm
    simp [e1, e2]

theorem stringLiteralPath_of_no_brace (text : String)
    (h : '\x7b' ∉ text.data ∧ '\x7d' ∉ text.data) : stringLiteralPath text = text := by
  apply String.ext
  rw [stringLiteralPath_data]
  exact flatMap_subst_of_no_brace text.data h.1 h.2

theorem stringLiteralPath_pathOf (segments : List Segment) (h : WellFormedPath segments) :
    stringLiteralPath (pathOf segments) = templateOf segments := by
  induction segments with
  | nil => decide
  | cons segment rest ih =>
    have hrest : WellFormedPath rest := fun s hs => h s (List.mem_cons_of_mem _ hs)
    have hseg := h segment (List.mem_cons_self _ _)
    cases segment with
    | literal text =>
      simp only [pathOf, templateOf, stringLiteralPath_append, ih hrest]
      rw [stringLiteralPath_of_no_brace text hseg]
    | placeholder name =>
      simp only [pathOf, templateOf, stringLiteralPath_append, ih hrest]
      rw [stringLiteralPath_of_no_brace name hseg]
      have hopen : stringLiteralPath "\x7b" = "$\x7brequest['" := by decide
      have hclose : stringLiteralPath "\x7d" = "']\x7d" := by decide
      rw [hopen, hclose]

/-- C2: for a path template made of literal text and well-formed, non-nested `{name}`
placeholders, `stringLiteralPath` yields the path with each `{name}` replaced by
`${request['name']}` and every other character unchanged, and the URL template written
into the `fetch` call is that text prefixed by `${url}` (followed by the query-string
suffix, which is empty when the operation has no query parameter).  For the path
`/orgs/{orgId}/members/{memberId}` the template is
`/orgs/${request['orgId']}/members/${request['memberId']}`, whose value for the request
`{orgId: "a", memberId: "b"}` is `/orgs/a/members/b`. -/
theorem path_template_substitution (segments : List Segment) (h : WellFormedPath segments)
    (method : String) (queryParams : List String) :
    stringLiteralPath (pathOf segments) = templateOf segments
    ∧ writeFetch method (pathOf segments) queryParams []
      = (if method ≠ "get" then
          [Cmd.write ("const response = await fetch(`$\x7burl\x7d" ++ templateOf segments
              ++ searchString queryParams ++ "`, "),
           Cmd.inlineBlockOpen, Cmd.write "method: ", Cmd.quote,
           Cmd.write (toUpperCase method), Cmd.quote, Cmd.write ",",
           Cmd.writeLine "body: JSON.stringify(request),", Cmd.write "headers",
           Cmd.inlineBlockClose, Cmd.write ")"]
        else
          [Cmd.write ("const response = await fetch(`$\x7burl\x7d" ++ templateOf segments
              ++ searchString queryParams ++ "`)")])
    ∧ searchString [] = ""
    ∧ stringLiteralPath "/orgs/\x7borgId\x7d/members/\x7bmemberId\x7d"
        = "/orgs/$\x7brequest['orgId']\x7d/members/$\x7brequest['memberId']\x7d"
    ∧ templateOf membersPath
        = "/orgs/$\x7brequest['orgId']\x7d/members/$\x7brequest['memberId']\x7d"
    ∧ evalTemplate membersRequest membersPath = "/orgs/a/members/b" := by
  refine ⟨stringLiteralPath_pathOf segments h, ?_, by decide, by decide, by decide, by decide⟩
  unfold writeFetch
  rw [stringLiteralPath_pathOf segments h]
  by_cases hm : method = "get" <;>
    simp [hm, Writer.write, Writer.writeLine, Writer.quote, Writer.inlineBlock]

/-- Witness of C2 on the path `/orgs/{orgId}/members/{memberId}`. -/
theorem path_template_substitution_witness :
    WellFormedPath membersPath
    ∧ pathOf membersPath = "/orgs/\x7borgId\x7d/members/\x7bmemberId\x7d"
    ∧ stringLiteralPath (pathOf membersPath) = templateOf membersPath
    ∧ writeFetch "get" (pathOf membersPath) [] []
        = [Cmd.write ("const response = await fetch(`$\x7burl\x7d"
            ++ "/orgs/$\x7brequest['orgId']\x7d/members/$\x7brequest['memberId']\x7d" ++ "`)")] :=
  ⟨by decide, by decide,
    (path_template_substitution membersPath (by decide) "get" []).1,
    by decide⟩

/-! ## Operation order and the factory (C8) -/

theorem extractMethods_map (H : Helpers) (path : String)
    (methods : List (String × OperationObject)) (generatedOperationIds : List String) :
    (extractMethods H path methods generatedOperationIds).1.map
        (fun r => (r.path, r.method, r.operation.parameters, r.operation.responses))
      = methods.map (fun m => (path, m.1, m.2.parameters, m.2.responses)) := by
  induction methods generalizing generatedOperationIds with
  | nil => rfl
  | cons entry rest ih =>
    obtain ⟨method, operation⟩ := entry
    simp only [extractMethods, List.map_cons, ih]

theorem extractPaths_map (H : Helpers) (paths : Paths) (generatedOperationIds : List String) :
    (extractPaths H paths generatedOperationIds).1.map
        (fun r => (r.path, r.method, r.operation.parameters, r.operation.responses))
      = paths.flatMap (fun entry =>
          entry.2.map (fun m => (entry.1, m.1, m.2.parameters, m.2.responses))) := by
  induction paths generalizing generatedOperationIds with
  | nil => rfl
  | cons entry rest ih =>
    obtain ⟨path, methods⟩ := entry
    simp only [extractPaths, List.map_append, List.flatMap_cons, ih, extractMethods_map]

theorem writeFunctionHead_eq (language underscoredOperationId operationRequestName
    operationResponseName : String) :
    writeFunctionHead language underscoredOperationId operationRequestName
        operationResponseName []
      = [Cmd.write (if language = "ts" then
          "const " ++ underscoredOperationId ++ " = async (url: string, request: Types."
            ++ operationRequestName ++ "): Promise<Types." ++ operationResponseName ++ "> =>"
        else "async function " ++ underscoredOperationId ++ " (url, request)")] := by
  unfold writeFunctionHead
  split <;> simp [Writer.write]

/-- C8: the extracted operation sequence has one record per (path, method) pair, paths in
document order and methods in order within each path, each record carrying the
operation found there; the output holds one private function per operation in that
order, written under the name `_<operationId>`, and the object returned by `build(url)`
has one entry per operation, in the same order, of the form
`<operationId>: _<operationId>.bind(url, ...arguments)`, followed by a comma except for
the last one. -/
theorem operations_and_factory_in_document_order (H : Helpers) (schema : Schema)
    (name language : String) (fullResponse : Bool) :
    (extractOperations H schema.paths).map
        (fun r => (r.path, r.method, r.operation.parameters, r.operation.responses))
      = schema.paths.flatMap (fun entry =>
          entry.2.map (fun m => (entry.1, m.1, m.2.parameters, m.2.responses)))
    ∧ generateFrontendImplementationFromOpenAPI H schema name language fullResponse
      = writePreamble name language (H.capitalize (H.camelcase name)) []
        ++ (extractOperations H schema.paths).flatMap (fun operation =>
            [Cmd.write (if language = "ts" then
               "const " ++ ("_" ++ operation.operation.operationId)
                 ++ " = async (url: string, request: Types."
                 ++ (H.capitalize (H.camelcase operation.operation.operationId) ++ "Request")
                 ++ "): Promise<Types."
                 ++ (H.capitalize (H.camelcase operation.operation.operationId) ++ "Responses")
                 ++ "> =>"
             else "async function " ++ ("_" ++ operation.operation.operationId)
                 ++ " (url, request)"),
             Cmd.blockOpen]
            ++ writeRequest language
                (H.capitalize (H.camelcase operation.operation.operationId) ++ "Request")
                operation (queryParamsOf operation) (headerParamsOf operation) []
            ++ (if classify H operation.operation.responses fullResponse = true then
                  writeFullResponse H language operation.operation.responses
                    (H.getResponseTypes operation.operation.responses) []
                else writePlainResponse H operation.operation.responses [])
            ++ [Cmd.blockClose, Cmd.blankLine]
            ++ writeExport name language (H.capitalize (H.camelcase name))
                operation.operation.operationId ("_" ++ operation.operation.operationId)
                (H.capitalize (H.camelcase operation.operation.operationId) ++ "Request")
                (H.capitalize (H.camelcase operation.operation.operationId) ++ "Responses") [])
        ++ ([Cmd.write (if language = "ts" then "export default function build (url: string)"
                else "export default function build (url)"),
             Cmd.blockOpen, Cmd.write "return", Cmd.blockOpen]
            ++ (extractOperations H schema.paths).enum.map (fun entry =>
                Cmd.writeLine (entry.2.operation.operationId ++ ": "
                  ++ ("_" ++ entry.2.operation.operationId) ++ ".bind(url, ...arguments)"
                  ++ (if entry.1 = (extractOperations H schema.paths).length - 1 then ""
                      else ",")))
            ++ [Cmd.blockClose, Cmd.blockClose]) := by
  constructor
  · exact extractPaths_map H schema.paths []
  · rw [generate_eq, writeFactory_eq]
    simp only [operationCode, writeFunctionHead_eq, List.enum_map, List.map_map,
      List.length_map, List.nil_append, List.append_assoc, List.singleton_append,
      List.cons_append]
    rfl

/-! ## The two dialects (C10) -/

theorem SameRuntimeLogic.refl (l : List Cmd) : SameRuntimeLogic l l := by
  induction l with
  | nil => exact SameRuntimeLogic.nil
  | cons c rest ih => exact SameRuntimeLogic.same c rest rest ih

theorem SameRuntimeLogic.append {a b c d : List Cmd} (h1 : SameRuntimeLogic a b)
    (h2 : SameRuntimeLogic c d) : SameRuntimeLogic (a ++ c) (b ++ d) := by
  induction h1 with
  | nil => exact h2
  | same x typed untyped _ ih => exact SameRuntimeLogic.same x _ _ ih
  | annotated x y typed untyped hxy _ ih => exact SameRuntimeLogic.annotated x y _ _ hxy ih
  | typedOnly x typed untyped hx _ ih => exact SameRuntimeLogic.typedOnly x _ _ hx ih
  | untypedOnly y typed untyped hy _ ih => exact SameRuntimeLogic.untypedOnly y _ _ hy ih

theorem SameRuntimeLogic.flatMap {α : Type} (l : List α) (f g : α → List Cmd)
    (h : ∀ x, SameRuntimeLogic (f x) (g x)) :
    SameRuntimeLogic (l.flatMap f) (l.flatMap g) := by
  induction l with
  | nil => exact SameRuntimeLogic.nil
  | cons x rest ih =>
    rw [List.flatMap_cons, List.flatMap_cons]
    exact SameRuntimeLogic.append (h x) ih

theorem startsWith_append (a b pre : String) (h : startsWith a pre = true) :
    startsWith (a ++ b) pre = true := by
  unfold startsWith at *
  rw [String.data_append]
  rw [List.isPrefixOf_iff_prefix] at *
  exact h.trans (List.prefix_append _ _)

theorem sameRuntimeLogic_preamble (name language camelCaseName : String)
    (hl : language ≠ "ts") :
    SameRuntimeLogic (writePreamble name "ts" camelCaseName [])
      (writePreamble name language camelCaseName []) := by
  have h1 : startsWith ("import type \x7b " ++ camelCaseName ++ " \x7d from './" ++ name
      ++ "-types'") "import type " = true :=
    startsWith_append _ _ _ (startsWith_append _ _ _ (startsWith_append _ _ _
      (startsWith_append _ _ _ (by decide))))
  have h2 : startsWith ("import type * as Types from './" ++ name ++ "-types'")
      "import type " = true :=
    startsWith_append _ _ _ (startsWith_append _ _ _ (by decide))
  have h3 : startsWith ("/**  @type \x7bimport('./" ++ name ++ "-types.d.ts')."
      ++ camelCaseName ++ "['setBaseUrl']\x7d */") "/**  @type " = true :=
    startsWith_append _ _ _ (startsWith_append _ _ _ (startsWith_append _ _ _
      (startsWith_append _ _ _ (by decide))))
  have hts : writePreamble name "ts" camelCaseName []
      = [Cmd.write
           "// This client was generated by Platformatic from an OpenAPI specification.",
         Cmd.blankLine,
         Cmd.conditionalWriteLine true
           ("import type \x7b " ++ camelCaseName ++ " \x7d from './" ++ name ++ "-types'"),
         Cmd.conditionalWriteLine true ("import type * as Types from './" ++ name ++ "-types'"),
         Cmd.blankLineIfLastNot,
         Cmd.writeLine
           "// The base URL for the API. This can be overridden by calling `setBaseUrl`.",
         Cmd.writeLine "let baseUrl = ''",
         Cmd.writeLine
           "export const setBaseUrl = (newUrl: string) : void => \x7b baseUrl = newUrl \x7d",
         Cmd.writeLine "/* @ts-ignore */",
         Cmd.write "function headersToJSON(headers: Headers): Object ",
         Cmd.blockOpen,
         Cmd.writeLine "const output = \x7b\x7d as any",
         Cmd.write "headers.forEach((value, key) => ",
         Cmd.inlineBlockOpen, Cmd.write "output[key] = value", Cmd.inlineBlockClose,
         Cmd.write ")", Cmd.writeLine "return output", Cmd.blockClose, Cmd.blankLine] := by
    simp [writePreamble, Writer.write, Writer.writeLine, Writer.conditionalWriteLine,
      Writer.blankLine, Writer.blankLineIfLastNot, Writer.block, Writer.inlineBlock]
  have hjs : writePreamble name language camelCaseName []
      = [Cmd.write
           "// This client was generated by Platformatic from an OpenAPI specification.",
         Cmd.blankLine,
         Cmd.conditionalWriteLine false
           ("import type \x7b " ++ camelCaseName ++ " \x7d from './" ++ name ++ "-types'"),
         Cmd.conditionalWriteLine false
           ("import type * as Types from './" ++ name ++ "-types'"),
         Cmd.blankLineIfLastNot,
         Cmd.writeLine
           "// The base URL for the API. This can be overridden by calling `setBaseUrl`.",
         Cmd.writeLine "let baseUrl = ''",
         Cmd.writeLine ("/**  @type \x7bimport('./" ++ name ++ "-types.d.ts')."
           ++ camelCaseName ++ "['setBaseUrl']\x7d */"),
         Cmd.writeLine "export const setBaseUrl = (newUrl) => \x7b baseUrl = newUrl \x7d",
         Cmd.write "function headersToJSON(headers) ",
         Cmd.blockOpen,
         Cmd.writeLine "const output = \x7b\x7d",
         Cmd.write "headers.forEach((value, key) => ",
         Cmd.inlineBlockOpen, Cmd.write "output[key] = value", Cmd.inlineBlockClose,
         Cmd.write ")", Cmd.writeLine "return output", Cmd.blockClose, Cmd.blankLine] := by
    simp [writePreamble, hl, Writer.write, Writer.writeLine, Writer.conditionalWriteLine,
      Writer.blankLine, Writer.blankLineIfLastNot, Writer.block, Writer.inlineBlock]
  rw [hts, hjs]
  apply SameRuntimeLogic.same
  apply SameRuntimeLogic.same
  apply SameRuntimeLogic.annotated _ _ _ _ (Annotated.typeImport _ h1)
  apply SameRuntimeLogic.annotated _ _ _ _ (Annotated.typeImport _ h2)
  apply SameRuntimeLogic.same
  apply SameRuntimeLogic.same
  apply SameRuntimeLogic.same
  apply SameRuntimeLogic.untypedOnly _ _ _ (UntypedOnly.jsdoc _ h3)
  apply SameRuntimeLogic.annotated _ _ _ _ Annotated.setBaseUrl
  apply SameRuntimeLogic.typedOnly _ _ _ TypedOnly.tsIgnore
  apply SameRuntimeLogic.annotated _ _ _ _ Annotated.headersToJSON
  apply SameRuntimeLogic.same
  apply SameRuntimeLogic.annotated _ _ _ _ Annotated.output
  exact SameRuntimeLogic.refl _

theorem sameRuntimeLogic_queryParameters (language operationRequestName : String)
    (queryParams : List String) (hl : language ≠ "ts") :
    SameRuntimeLogic (writeQueryParameters "ts" operationRequestName queryParams [])
      (writeQueryParameters language operationRequestName queryParams []) := by
  by_cases hq : queryParams.length ≠ 0
  · have hts : writeQueryParameters "ts" operationRequestName queryParams []
        = [Cmd.writeLine ("const queryParameters"
              ++ (": (keyof Types." ++ operationRequestName ++ ")[] ") ++ " = ["
              ++ join (queryParams.map (fun qp => "'" ++ qp ++ "'")) ", " ++ "]"),
           Cmd.writeLine "const searchParams = new URLSearchParams()",
           Cmd.write "queryParameters.forEach((qp) => ", Cmd.inlineBlockOpen,
           Cmd.write "if (request[qp]) ", Cmd.blockOpen,
           Cmd.writeLine "searchParams.append(qp, request[qp]?.toString() || '')",
           Cmd.writeLine "delete request[qp]", Cmd.blockClose, Cmd.inlineBlockClose,
           Cmd.write ")", Cmd.blankLine] := by
      unfold writeQueryParameters
      rw [if_pos hq]
      simp only [if_true, Writer.write, Writer.writeLine, Writer.blankLine, Writer.block,
        Writer.inlineBlock, List.nil_append, List.cons_append, List.append_assoc]
    have hjs : writeQueryParameters language operationRequestName queryParams []
        = [Cmd.writeLine ("const queryParameters" ++ "" ++ " = ["
              ++ join (queryParams.map (fun qp => "'" ++ qp ++ "'")) ", " ++ "]"),
           Cmd.writeLine "const searchParams = new URLSearchParams()",
           Cmd.write "queryParameters.forEach((qp) => ", Cmd.inlineBlockOpen,
           Cmd.write "if (request[qp]) ", Cmd.blockOpen,
           Cmd.writeLine "searchParams.append(qp, request[qp]?.toString() || '')",
           Cmd.writeLine "delete request[qp]", Cmd.blockClose, Cmd.inlineBlockClose,
           Cmd.write ")", Cmd.blankLine] := by
      unfold writeQueryParameters
      rw [if_pos hq]
      simp only [if_neg hl, Writer.write, Writer.writeLine, Writer.blankLine, Writer.block,
        Writer.inlineBlock, List.nil_append, List.cons_append, List.append_assoc]
    rw [hts, hjs]
    exact SameRuntimeLogic.annotated _ _ _ _ (Annotated.queryParameters _ _)
      (SameRuntimeLogic.refl _)
  · unfold writeQueryParameters
    rw [if_neg hq, if_neg hq]
    exact SameRuntimeLogic.nil

theorem sameRuntimeLogic_request (language operationRequestName : String)
    (operation : OperationRecord) (queryParams headerParams : List String)
    (hl : language ≠ "ts") :
    SameRuntimeLogic
      (writeRequest "ts" operationRequestName operation queryParams headerParams [])
      (writeRequest language operationRequestName operation queryParams headerParams []) := by
  rw [writeRequest_eq, writeRequest_eq, writeHeaderParams_eq, writeHeaderParams_eq,
    writeHeadersDeclaration_append,
    writeHeadersDeclaration_append _ (writeQueryParameters language _ _ _)]
  simp only [List.append_assoc]
  exact SameRuntimeLogic.append
    (sameRuntimeLogic_queryParameters language operationRequestName queryParams hl)
    (SameRuntimeLogic.refl _)

theorem sameRuntimeLogic_fullResponse (H : Helpers) (language : String)
    (responses : Responses) (mappedResponses : List (String × List String))
    (hl : language ≠ "ts") :
    SameRuntimeLogic (writeFullResponse H "ts" responses mappedResponses [])
      (writeFullResponse H language responses mappedResponses []) := by
  rw [writeFullResponse_eq, writeFullResponse_eq]
  simp only [if_neg hl, if_true, List.append_nil]
  refine SameRuntimeLogic.append (SameRuntimeLogic.append ?_ ?_) ?_
  · apply SameRuntimeLogic.flatMap
    intro group
    apply SameRuntimeLogic.same
    apply SameRuntimeLogic.same
    apply SameRuntimeLogic.same
    apply SameRuntimeLogic.same
    apply SameRuntimeLogic.same
    apply SameRuntimeLogic.same
    apply SameRuntimeLogic.annotated _ _ _ _ (Annotated.statusCast _)
    exact SameRuntimeLogic.refl _
  · simp only [List.cons_append, List.nil_append]
    apply SameRuntimeLogic.same
    apply SameRuntimeLogic.same
    apply SameRuntimeLogic.same
    apply SameRuntimeLogic.same
    apply SameRuntimeLogic.same
    apply SameRuntimeLogic.annotated _ _ _ _ (Annotated.statusCast _)
    apply SameRuntimeLogic.same
    apply SameRuntimeLogic.same
    apply SameRuntimeLogic.typedOnly _ _ _ TypedOnly.asAny
    exact SameRuntimeLogic.refl _
  · simp only [List.cons_append, List.nil_append]
    apply SameRuntimeLogic.same
    apply SameRuntimeLogic.same
    apply SameRuntimeLogic.same
    apply SameRuntimeLogic.annotated _ _ _ _ (Annotated.statusCast _)
    apply SameRuntimeLogic.same
    apply SameRuntimeLogic.same
    apply SameRuntimeLogic.typedOnly _ _ _ TypedOnly.asAny
    exact SameRuntimeLogic.refl _

theorem sameRuntimeLogic_export (name language camelCaseName operationId
    underscoredOperationId operationRequestName operationResponseName : String)
    (hl : language ≠ "ts") :
    SameRuntimeLogic
      (writeExport name "ts" camelCaseName operationId underscoredOperationId
        operationRequestName operationResponseName [])
      (writeExport name language camelCaseName operationId underscoredOperationId
        operationRequestName operationResponseName []) := by
  have h : startsWith ("/**  @type \x7bimport('./" ++ name ++ "-types.d.ts')."
      ++ camelCaseName ++ "['" ++ operationId ++ "']\x7d */") "/**  @type " = true :=
    startsWith_append _ _ _ (startsWith_append _ _ _ (startsWith_append _ _ _
      (startsWith_append _ _ _ (startsWith_append _ _ _ (startsWith_append _ _ _
        (by decide))))))
  unfold writeExport
  rw [if_neg hl]
  simp only [if_true, Writer.write, Writer.writeLine, Writer.block, List.nil_append,
    List.cons_append, List.append_assoc]
  apply SameRuntimeLogic.untypedOnly _ _ _ (UntypedOnly.jsdoc _ h)
  apply SameRuntimeLogic.annotated _ _ _ _ (Annotated.exportHead _ _ _ _)
  exact SameRuntimeLogic.refl _

theorem sameRuntimeLogic_operationCode (H : Helpers) (name language camelCaseName : String)
    (operation : OperationRecord) (currentFullResponse : Bool) (hl : language ≠ "ts") :
    SameRuntimeLogic
      (operationCode H name "ts" camelCaseName operation currentFullResponse)
      (operationCode H name language camelCaseName operation currentFullResponse) := by
  have hd : SameRuntimeLogic
      (if currentFullResponse = true then
        writeFullResponse H "ts" operation.operation.responses
          (H.getResponseTypes operation.operation.responses) []
      else writePlainResponse H operation.operation.responses [])
      (if currentFullResponse = true then
        writeFullResponse H language operation.operation.responses
          (H.getResponseTypes operation.operation.responses) []
      else writePlainResponse H operation.operation.responses []) := by
    cases currentFullResponse with
    | true =>
      simp only [if_true]
      exact sameRuntimeLogic_fullResponse H language _ _ hl
    | false =>
      simp only [Bool.false_eq_true, if_false]
      exact SameRuntimeLogic.refl _
  simp only [operationCode, writeFunctionHead_eq, if_neg hl, if_true]
  refine SameRuntimeLogic.append (SameRuntimeLogic.append (SameRuntimeLogic.append
    (SameRuntimeLogic.append ?_ (sameRuntimeLogic_request language _ operation _ _ hl)) hd)
    (SameRuntimeLogic.refl _)) (sameRuntimeLogic_export name language _ _ _ _ _ hl)
  exact SameRuntimeLogic.annotated _ _ _ _ (Annotated.functionHead _ _ _)
    (SameRuntimeLogic.refl _)

theorem sameRuntimeLogic_factory (language : String) (allOperations : List String)
    (hl : language ≠ "ts") :
    SameRuntimeLogic (writeFactory "ts" allOperations [])
      (writeFactory language allOperations []) := by
  rw [writeFactory_eq, writeFactory_eq]
  simp only [if_neg hl, if_true, List.nil_append, List.cons_append]
  exact SameRuntimeLogic.annotated _ _ _ _ Annotated.build (SameRuntimeLogic.refl _)

/-- C10: for every document and global flag, the implementation generated for `ts` and
the one generated for any other language are the same sequence of writer calls (same
operation order, function names, URL templates and query-string suffixes, parameter
lists and extraction statements, fetch options, classification and dispatch branches)
except for the type imports, the type annotations and the casts of the typed output and
the JSDoc comments of the untyped one. -/
theorem dialects_share_runtime_logic (H : Helpers) (schema : Schema)
    (name language : String) (fullResponse : Bool) (hl : language ≠ "ts") :
    SameRuntimeLogic
      (generateFrontendImplementationFromOpenAPI H schema name "ts" fullResponse)
      (generateFrontendImplementationFromOpenAPI H schema name language fullResponse) := by
  rw [generate_eq, generate_eq]
  refine SameRuntimeLogic.append (SameRuntimeLogic.append
    (sameRuntimeLogic_preamble name language _ hl) ?_)
    (sameRuntimeLogic_factory language _ hl)
  apply SameRuntimeLogic.flatMap
  intro operation
  exact sameRuntimeLogic_operationCode H name language _ operation _ hl

/-- Witness of C10 on the sample document for the languages `ts` and `js`. -/
theorem dialects_share_runtime_logic_witness :
    "js" ≠ "ts"
    ∧ SameRuntimeLogic
        (generateFrontendImplementationFromOpenAPI sampleHelpers sampleSchema "movies" "ts"
          false)
        (generateFrontendImplementationFromOpenAPI sampleHelpers sampleSchema "movies" "js"
          false) :=
  ⟨by decide, dialects_share_runtime_logic sampleHelpers sampleSchema "movies" "js" false
    (by decide)⟩

/-! ## Query parameters (C6) -/

/-- C6 evaluated: for a `GET` operation declaring the query parameter `limit`, the
written extraction loop guards on `if (request[qp])`; run on the request `{limit: 5}`
it yields the query string `limit=5` and removes `limit` from the payload, but run on the
request `{limit: 0}`, where `limit` is present, it appends nothing and leaves `limit` in
the payload.  The header parameters are guarded by `!== undefined` instead. -/
theorem query_parameter_present_but_falsy_is_dropped :
    writeQueryParameters "js" "GetMoviesRequest" ["limit"] []
      = [Cmd.writeLine "const queryParameters = ['limit']",
         Cmd.writeLine "const searchParams = new URLSearchParams()",
         Cmd.write "queryParameters.forEach((qp) => ", Cmd.inlineBlockOpen,
         Cmd.write "if (request[qp]) ", Cmd.blockOpen,
         Cmd.writeLine "searchParams.append(qp, request[qp]?.toString() || '')",
         Cmd.writeLine "delete request[qp]", Cmd.blockClose, Cmd.inlineBlockClose,
         Cmd.write ")", Cmd.blankLine]
    ∧ writeHeaderParam [] "x-trace"
      = [Cmd.write "if (request['x-trace'] !== undefined)", Cmd.blockOpen,
         Cmd.writeLine "headers['x-trace'] = request['x-trace']",
         Cmd.writeLine "delete request['x-trace']", Cmd.blockClose]
    ∧ runQueryParameters ["limit"] [("limit", JsValue.number 5)] = ([("limit", "5")], [])
    ∧ searchParamsToString (runQueryParameters ["limit"] [("limit", JsValue.number 5)]).1
      = "limit=5"
    ∧ runQueryParameters ["limit"] [("limit", JsValue.number 0)]
      = ([], [("limit", JsValue.number 0)])
    ∧ searchString ["limit"] = "?$\x7bsearchParams.toString()\x7d"
    ∧ searchString [] = "" := by
  refine ⟨by decide, by decide, by decide, by decide, by decide, by decide, by decide⟩

/-! ## Header parameters of a GET operation (C7) -/

/-- C7 evaluated: for a document whose only operation is a `GET` declaring the header
parameter `x-trace`, the output contains the statement
`headers['x-trace'] = request['x-trace']` and no declaration `const headers =`, and the
`fetch` call is written without options. -/
theorem get_operation_writes_undeclared_headers :
    Cmd.writeLine "headers['x-trace'] = request['x-trace']"
      ∈ generateFrontendImplementationFromOpenAPI sampleHelpers listSchema "movies" "js" false
    ∧ Cmd.write "const headers ="
      ∉ generateFrontendImplementationFromOpenAPI sampleHelpers listSchema "movies" "js" false
    ∧ Cmd.write "const response = await fetch(`$\x7burl\x7d/movies?$\x7bsearchParams.toString()\x7d`)"
      ∈ generateFrontendImplementationFromOpenAPI sampleHelpers listSchema "movies" "js" false
    ∧ writeRequest "js" "GetMoviesRequest"
        { path := "/movies", method := "get",
          operation := { operationId := "getMovies",
                         parameters := some [{ name := "x-trace", in_ := "header" }],
                         responses := [("200", jsonResponse)] } }
        [] ["x-trace"] []
      = [Cmd.write "if (request['x-trace'] !== undefined)", Cmd.blockOpen,
         Cmd.writeLine "headers['x-trace'] = request['x-trace']",
         Cmd.writeLine "delete request['x-trace']", Cmd.blockClose,
         Cmd.blankLine,
         Cmd.write "const response = await fetch(`$\x7burl\x7d/movies`)",
         Cmd.blankLine] := by
  refine ⟨by decide, by decide, by decide, by decide⟩

/-! ## The buildable-client type (C9) -/

/-- C9 evaluated: for the client name `movies-api` the aggregate interface is declared
as `MoviesApi`, which is `capitalize(camelcase(name))`, while the buildable-client type
is written as `Omit<Movies-api, 'setBaseUrl'>`, which names `capitalize(name)`. -/
theorem buildable_client_omits_from_uncamelcased_name :
    (generateTypesFromOpenAPI sampleHelpers listSchema "movies-api" false).2
      = [Cmd.blankLine,
         Cmd.write "export interface MoviesApi",
         Cmd.blockOpen,
         Cmd.writeLine "setBaseUrl(newUrl: string) : void;",
         Cmd.writeLine "getMovies(req: GetMoviesRequest): Promise<GetMoviesResponses>;",
         Cmd.blockClose,
         Cmd.writeLine "type PlatformaticFrontendClient = Omit<Movies-api, 'setBaseUrl'>",
         Cmd.writeLine "export default function build(url: string): PlatformaticFrontendClient"]
    ∧ sampleHelpers.capitalize (sampleHelpers.camelcase "movies-api") = "MoviesApi"
    ∧ sampleHelpers.capitalize "movies-api" = "Movies-api" := by
  refine ⟨by decide, by decide, by decide⟩

end FrontendOpenAPI